import Mathlib

/-!
# QCV operator framework: data-exchange registry and stereo operator

Shallow embedding of `src/modules/sequencer/operator.h` (class `COperator`), of
`src/modules/operators/stereoOp.cpp` (class `CStereoOp`), of the grouping done by
`src/modules/paramEditor/paramEditorDlg.cpp`, of the string conversion in
`src/modules/paramEditor/enumParamBase.cpp` and of the colour structs of `src/colors.h`.

* Operators live in a heap indexed by their address (`OpId`).
* Pointers to published values are addresses (`Ptr`), `NULL` is address `0`.
* `printf` diagnostics are returned next to the result as a list of `Diag`.
* The recursive ancestor walk of `getInput` carries a fuel argument that counts
  the operators visited; `none` means the walk did not return within the fuel.
* Machine integers are mathematical integers; conversions between `double`, `unsigned int`,
  `int`, `size_t` and `uint8_t` are written out where a value can leave the range of its type.
-/

namespace QCV

/-! ## Value boxes and the I/O map -/

/-- Address of a published value (`_T *`). -/
abbrev Ptr := Nat

/-- The null pointer. -/
abbrev NULL : Ptr := 0

/-- Run-time identity of a C++ type (`typeid(_T)`). -/
abbrev TypeId := Nat

/-- Address of an operator (`COperator *`). -/
abbrev OpId := Nat

/-- Modelled from the spec: the value box `CIOBase` / `CIO<_T>` of `io.h`, which is not part of
the sources at hand. A box built by `new CIO<_T>(f_ptr)` carries the run-time type `_T` and the
pointer `f_ptr` ("associates one published value, referenced not copied, with a runtime type
tag"). -/
structure CIOBase where
  /-- The `_T` of the dynamic type `CIO<_T>` of the box. -/
  type : TypeId
  /-- The pointer handed to the constructor, returned by `getPtr()`. -/
  ptr : Ptr
  deriving DecidableEq, Repr

/-- The expression `new CIO<_T>(f_ptr)`. -/
def CIO (T : TypeId) (f_ptr : Ptr) : CIOBase := ⟨T, f_ptr⟩

/-- The expression `dynamic_cast< CIO<_T> * >(io)`: the box itself when its dynamic type is
`CIO<_T>`, the null result otherwise. -/
def dynamic_cast (T : TypeId) (io : CIOBase) : Option CIOBase :=
  if io.type = T then some io else none

/-- The member `CIO<_T>::getPtr()`. -/
def CIOBase.getPtr (io : CIOBase) : Ptr := io.ptr

/-- The container `std::map<std::string, CIOBase *>`, as the list of its key/box pairs. A
well-formed map holds every key at most once (`IOMap.WF`). -/
abbrev IOMap := List (String × CIOBase)

/-- The member `std::map::find`: the box of the entry with the given key, `none` for `end()`. -/
def IOMap.find (m : IOMap) (k : String) : Option CIOBase :=
  match m with
  | [] => none
  | (k', io) :: rest => if k' = k then some io else IOMap.find rest k

/-- The assignment `it->second = io` through the iterator returned by `find(k)`. -/
def IOMap.assign (m : IOMap) (k : String) (io : CIOBase) : IOMap :=
  match m with
  | [] => []
  | (k', io') :: rest =>
    if k' = k then (k', io) :: rest else (k', io') :: IOMap.assign rest k io

/-- The assignment `m[k] = io` for a key that `find` did not see: a new entry is added. -/
def IOMap.insertNew (m : IOMap) (k : String) (io : CIOBase) : IOMap :=
  (k, io) :: m

/-- The map after the body of the static `registerOutput`: the entry found under `k` is
overwritten, and a new entry is made when there is none. -/
def IOMap.put (m : IOMap) (k : String) (io : CIOBase) : IOMap :=
  match m.find k with
  | some _ => m.assign k io
  | none => m.insertNew k io

/-- The member `std::map::size`. -/
def IOMap.size (m : IOMap) : Nat := m.length

/-- Number of entries stored under key `k`. -/
def IOMap.entriesFor (m : IOMap) (k : String) : Nat :=
  (m.filter (fun e => decide (e.1 = k))).length

/-- Keys are unique, as in every `std::map`. -/
def IOMap.WF (m : IOMap) : Prop := (m.map Prod.fst).Nodup

instance (m : IOMap) : Decidable (IOMap.WF m) := by
  unfold IOMap.WF; infer_instance

/-! ## Operators and the operator heap -/

/-- The data members of `COperator` used by the registry. `m_parent_p`, `m_children_v` and the
name are inherited from `CNode`. -/
structure COperator where
  /-- Parent operator, `none` for `NULL` (`CNode::m_parent_p`). -/
  m_parent_p : Option OpId
  /-- IO Map. -/
  m_ios : IOMap
  deriving DecidableEq, Repr

/-- All operators of the program, by address. -/
abbrev Heap := OpId → COperator

/-- The member `COperator::getParentOp`. -/
def getParentOp (h : Heap) (op : OpId) : Option OpId := (h op).m_parent_p

/-- Messages printed by the registry. -/
inductive Diag where
  /-- `Object with Id "%s" not found.` -/
  | notFound (id : String)
  /-- `Object with Id "%s" is not of type %s.` -/
  | notOfType (id : String) (T : TypeId)
  /-- `Invalid input images.` -/
  | invalidInputImages
  /-- `Required image format is CV_8UC1 or CV_8UC3` -/
  | requiredImageFormat
  /-- `Operator at index %i is not of type %s.` -/
  | childAtIndexNotOfType (idx : Int)
  /-- `Operator with name %s is not of type %s` -/
  | childNotOfType (name : String)
  /-- `Stereo requires two images to compute` -/
  | requiresTwoImages
  deriving DecidableEq, Repr

/-- Replace the IO map of operator `f_op`. -/
def setIos (h : Heap) (f_op : OpId) (m : IOMap) : Heap :=
  fun o => if o = f_op then { h o with m_ios := m } else h o

/-- The static `COperator::registerOutput ( f_id_str, f_ptr, f_op )`. -/
def registerOutputTo (h : Heap) (T : TypeId) (f_id_str : String) (f_ptr : Ptr) (f_op : OpId) :
    Heap :=
  match (h f_op).m_ios.find f_id_str with
  | some _ => setIos h f_op ((h f_op).m_ios.assign f_id_str ( CIO T f_ptr))
  | none => setIos h f_op ((h f_op).m_ios.insertNew f_id_str ( CIO T f_ptr))

/-- The member `COperator::registerOutput ( f_id_str, f_ptr )` called on operator `this`. -/
def registerOutput (h : Heap) (T : TypeId) (this : OpId) (f_id_str : String) (f_ptr : Ptr) :
    Heap :=
  let h1 := registerOutputTo h T f_id_str f_ptr this
  match getParentOp h1 this with
  | some p => registerOutputTo h1 T f_id_str f_ptr p
  | none => h1

/-- The member `COperator::getOutput ( f_id_str )` (no search in parent); the const overload has
the same body. Returns the pointer and what was printed. -/
def getOutput (h : Heap) (T : TypeId) (this : OpId) (f_id_str : String) : Ptr × List Diag :=
  match (h this).m_ios.find f_id_str with
  | none => (NULL, [Diag.notFound f_id_str])
  | some io =>
    match dynamic_cast T io with
    | some cio_p => (cio_p.getPtr, [])
    | none => (NULL, [Diag.notOfType f_id_str T])

/-- The member `COperator::getOutput ( f_id_str ) const`. -/
def getOutputConst (h : Heap) (T : TypeId) (this : OpId) (f_id_str : String) :
    Ptr × List Diag :=
  match (h this).m_ios.find f_id_str with
  | none => (NULL, [Diag.notFound f_id_str])
  | some io =>
    match dynamic_cast T io with
    | some cio_p => (cio_p.getPtr, [])
    | none => (NULL, [Diag.notOfType f_id_str T])

/-- The member `COperator::getInput ( f_id_str )`, non-const overload. `fuel` bounds the number
of operators visited on the way up. -/
def getInput (h : Heap) (T : TypeId) (f_id_str : String) : Nat → OpId → Option (Ptr × List Diag)
  | 0, _ => none
  | fuel + 1, this =>
    match (h this).m_ios.find f_id_str with
    | none =>
      match getParentOp h this with
      | some p => getInput h T f_id_str fuel p
      | none => some (NULL, [Diag.notFound f_id_str])
    | some io =>
      match dynamic_cast T io with
      | some io_p => some (io_p.getPtr, [])
      | none => some (NULL, [Diag.notOfType f_id_str T])

/-- The member `COperator::getInput ( f_id_str ) const`. -/
def getInputConst (h : Heap) (T : TypeId) (f_id_str : String) :
    Nat → OpId → Option (Ptr × List Diag)
  | 0, _ => none
  | fuel + 1, this =>
    match (h this).m_ios.find f_id_str with
    | none =>
      match getParentOp h this with
      | some p => getInputConst h T f_id_str fuel p
      | none => some (NULL, [Diag.notFound f_id_str])
    | some io =>
      match dynamic_cast T io with
      | some cio_p => some (cio_p.getPtr, [])
      | none => some (NULL, [Diag.notOfType f_id_str T])

/-- The member `COperator::getInput ( f_id_str, f_default ) const`. The result is a reference:
`deref p` stands for `*p`, the object behind a stored pointer, and `f_default` for the object
passed as default. -/
def getInputDefault {R : Type} (h : Heap) (T : TypeId) (deref : Ptr → R) (f_id_str : String)
    (f_default : R) : Nat → OpId → Option (R × List Diag)
  | 0, _ => none
  | fuel + 1, this =>
    match (h this).m_ios.find f_id_str with
    | none =>
      match getParentOp h this with
      | some p => getInputDefault h T deref f_id_str f_default fuel p
      | none => some (f_default, [Diag.notFound f_id_str])
    | some io =>
      match dynamic_cast T io with
      | some cio_p => some (deref cio_p.getPtr, [])
      | none => some (f_default, [Diag.notOfType f_id_str T])

/-- The `n`-th ancestor of `op` (`op` itself for `n = 0`), when the parent chain is that long. -/
def ancestor (h : Heap) : Nat → OpId → Option OpId
  | 0, op => some op
  | n + 1, op =>
    match getParentOp h op with
    | some p => ancestor h n p
    | none => none

/-- Operator `op` has exactly `d` ancestors: following the parent links `d` times reaches a
root. -/
def hasDepth (h : Heap) : Nat → OpId → Bool
  | 0, op => (getParentOp h op).isNone
  | d + 1, op =>
    match getParentOp h op with
    | some p => hasDepth h d p
    | none => false

/-! ## The stereo operator -/

/-- Header of a `cv::Mat`: its size and its type. Pixel data is not modelled. -/
structure Mat where
  /-- Number of columns, `size().width`. -/
  width : Int
  /-- Number of rows, `size().height`. -/
  height : Int
  /-- Element type, `type()`. -/
  type : Int
  deriving DecidableEq, Repr

/-- The default-constructed `cv::Mat()`: no rows and no columns. -/
def Mat.default : Mat := ⟨0, 0, 0⟩

/-- The member `cv::Mat::size()`. -/
def Mat.size (m : Mat) : Int × Int := (m.width, m.height)

/-- OpenCV type code `CV_8UC1`. -/
def CV_8UC1 : Int := 0

/-- OpenCV type code `CV_16S`. -/
def CV_16S : Int := 3

/-- OpenCV type code `CV_32FC1`. -/
def CV_32FC1 : Int := 5

/-- OpenCV type code `CV_8UC3`. -/
def CV_8UC3 : Int := 16

/-- Run-time identity of `cv::Mat`. -/
def typeMat : TypeId := 1

/-- Run-time identity of `CMatVector`. -/
def typeMatVector : TypeId := 2

/-- The objects behind the pointers stored in the registry: `mat p` is the `cv::Mat` at address
`p`, `matVector p` the `CMatVector` at address `p`. -/
structure Memory where
  /-- The `cv::Mat` at an address. -/
  mat : Ptr → Mat
  /-- The `CMatVector` at an address. -/
  matVector : Ptr → List Mat

/-- The enumeration `CStereoOp::EStereoAlgorithm`. -/
inductive EStereoAlgorithm where
  | SA_SGBM
  | SA_BM
  deriving DecidableEq, Repr

/-- The data members of `CStereoOp` that `getInput` and `cycle` read or write. Images are
headers only; of `m_sgbm` and `m_sbm` the number of disparities is kept. -/
structure CStereoOp where
  /-- Address of the operator itself in the operator heap. -/
  this : OpId
  /-- The address `&m_dispImg`. -/
  addr_dispImg : Ptr
  /-- The address `&m_dispImgFloat`. -/
  addr_dispImgFloat : Ptr
  /-- Compute? -/
  m_compute_b : Bool
  /-- Left image id. -/
  m_leftImgId_str : String
  /-- Right image id. -/
  m_rightImgId_str : String
  /-- Disparity image id. -/
  m_dispImgId_str : String
  /-- Stereo algorithm to use. -/
  m_alg_e : EStereoAlgorithm
  /-- The field `m_sgbm.numberOfDisparities`. -/
  m_sgbm_numberOfDisparities : Int
  /-- The field `m_sbm.state->numberOfDisparities`. -/
  m_sbm_numberOfDisparities : Int
  /-- Left image. -/
  m_leftImg : Mat
  /-- Right image. -/
  m_rightImg : Mat
  /-- Output disparity image. -/
  m_dispImg : Mat
  /-- Float output disparity image. -/
  m_dispImgFloat : Mat
  /-- Down-scale factor. -/
  m_scale_i : Int
  /-- Convert disparity image to float? -/
  m_convert2Float_b : Bool
  /-- The function-local `static int oldScale_i` of `cycle`. -/
  oldScale_i : Int
  deriving DecidableEq, Repr

/-- The state set up by the constructor `CStereoOp::CStereoOp` (initialiser list and the
defaults of the "Number Of Disparities" parameters). -/
def CStereoOp.init (this : OpId) (addr_dispImg addr_dispImgFloat : Ptr) : CStereoOp :=
  { this := this
    addr_dispImg := addr_dispImg
    addr_dispImgFloat := addr_dispImgFloat
    m_compute_b := true
    m_leftImgId_str := "Image 0"
    m_rightImgId_str := "Image 1"
    m_dispImgId_str := "Disparity Image"
    m_alg_e := EStereoAlgorithm.SA_BM
    m_sgbm_numberOfDisparities := 64
    m_sbm_numberOfDisparities := 64
    m_leftImg := Mat.default
    m_rightImg := Mat.default
    m_dispImg := Mat.default
    m_dispImgFloat := Mat.default
    m_scale_i := 2
    m_convert2Float_b := false
    oldScale_i := -1 }

/-- The member `CStereoOp::validateImages`. -/
def CStereoOp.validateImages (s : CStereoOp) : Bool :=
  decide (s.m_leftImg.size.1 > 0) &&
  decide (s.m_leftImg.size.2 > 0) &&
  decide (s.m_leftImg.size = s.m_rightImg.size) &&
  decide (s.m_leftImg.type = s.m_rightImg.type)

/-- The member `CStereoOp::getInput`: the result, the operator afterwards and what the registry
lookups printed. -/
def CStereoOp.getInput (mem : Memory) (h : Heap) (fuel : Nat) (s : CStereoOp) :
    Option (Bool × CStereoOp × List Diag) :=
  match getInputDefault h typeMat mem.mat s.m_leftImgId_str Mat.default fuel s.this with
  | none => none
  | some (left, out1) =>
    match getInputDefault h typeMat mem.mat s.m_rightImgId_str Mat.default fuel s.this with
    | none => none
    | some (right, out2) =>
      let s1 := { s with m_leftImg := left, m_rightImg := right }
      if !s1.validateImages then
        match QCV.getInput h typeMatVector "Images" fuel s.this with
        | none => none
        | some (vec, out3) =>
          let s2 :=
            if vec ≠ NULL then
              match mem.matVector vec with
              | v0 :: v1 :: _ => { s1 with m_leftImg := v0, m_rightImg := v1 }
              | _ => s1
            else s1
          some (s2.validateImages, s2, out1 ++ out2 ++ out3)
      else some (true, s1, out1 ++ out2)

/-- The expression `ceil(n / (16.0*m_scale_i)) * 16` of `cycle`, in exact arithmetic. -/
def scaledDisparities (n scale : Int) : Int :=
  ⌈(n : ℚ) / (16 * (scale : ℚ))⌉ * 16

/-- Conversion of a whole-valued `double` to `unsigned int` (32 bits): the value modulo
`2 ^ 32`. -/
def doubleToUnsigned (v : Int) : Int := v % 4294967296

/-- Conversion of an `unsigned int` to `int` (32 bits, two's complement): values from `2 ^ 31`
on come out negative. -/
def unsignedToInt (u : Int) : Int := if u < 2147483648 then u else u - 4294967296

/-- The number of disparities that `cycle` writes back for the stored value `n`:
`unsigned int numberOfDisparities = ceil(n / (16.0*m_scale_i)) * 16;` followed by the
assignment of `numberOfDisparities` to the `int` field. -/
def writtenDisparities (n scale : Int) : Int :=
  unsignedToInt (doubleToUnsigned (scaledDisparities n scale))

/-- Result header of `cv::resize(src, dst, size)`: the requested size, the type of `src`. -/
def resize (src : Mat) (size : Int × Int) : Mat := ⟨size.1, size.2, src.type⟩

/-- Result header of a stereo matcher (`m_sgbm(l, r, disp)`, `m_sbm(l, r, disp)`): the size of
the left image, type `CV_16S`. -/
def disparityOf (left _right : Mat) : Mat := ⟨left.width, left.height, CV_16S⟩

/-- End of `CStereoOp::cycle`, from `if (m_scale_i != 1)` on: the disparity image is brought
back to the size of `vec0`, the float image is made, and both are registered. -/
def CStereoOp.finishCycle (h : Heap) (s : CStereoOp) (vec0 auxImg : Mat) : CStereoOp × Heap :=
  let s1 := if s.m_scale_i ≠ 1 then { s with m_dispImg := resize auxImg vec0.size } else s
  let s2 := { s1 with m_dispImgFloat := ⟨s1.m_dispImg.width, s1.m_dispImg.height, CV_32FC1⟩ }
  let h1 := registerOutput h typeMat s2.this s2.m_dispImgId_str s2.addr_dispImg
  let h2 := registerOutput h1 typeMat s2.this ("Float " ++ s2.m_dispImgId_str)
    s2.addr_dispImgFloat
  (s2, h2)

/-- The member `CStereoOp::cycle`: the result, the operator and the operator heap afterwards,
and what was printed. `scaler` is the effect of the child "Stereo Image Scaler" on the image
pair (`compute ( vec, vec )`; `imgScalerOp.h` is not part of the sources at hand). -/
def CStereoOp.cycle (scaler : Mat → Mat → Mat × Mat) (mem : Memory) (h : Heap) (fuel : Nat)
    (s : CStereoOp) : Option (Bool × CStereoOp × Heap × List Diag) :=
  if s.m_compute_b then
    match CStereoOp.getInput mem h fuel s with
    | none => none
    | some (false, s1, out) => some (true, s1, h, out)
    | some (true, s1, out) =>
      let vec : Mat × Mat := scaler s1.m_leftImg s1.m_rightImg
      let s2 : CStereoOp := { s1 with
        m_sgbm_numberOfDisparities :=
          writtenDisparities s1.m_sgbm_numberOfDisparities s1.m_scale_i
        m_sbm_numberOfDisparities :=
          writtenDisparities s1.m_sbm_numberOfDisparities s1.m_scale_i }
      let size : Int × Int :=
        if s2.m_scale_i > 1 then
          (Int.tdiv vec.1.size.1 s2.m_scale_i, Int.tdiv vec.1.size.2 s2.m_scale_i)
        else vec.1.size
      let tmpLeft : Mat := if s2.m_scale_i > 1 then resize vec.1 size else vec.1
      let tmpRight : Mat := if s2.m_scale_i > 1 then resize vec.2 size else vec.2
      let auxImg : Mat := if s2.m_scale_i > 1 then ⟨size.1, size.2, CV_16S⟩ else Mat.default
      match s2.m_alg_e with
      | EStereoAlgorithm.SA_SGBM =>
        if s2.m_scale_i > 1 then
          let r := CStereoOp.finishCycle h s2 vec.1 (disparityOf tmpLeft tmpRight)
          some (true, r.1, r.2, out)
        else
          let r := CStereoOp.finishCycle h
            { s2 with m_dispImg := disparityOf tmpLeft tmpRight } vec.1 auxImg
          some (true, r.1, r.2, out)
      | EStereoAlgorithm.SA_BM =>
        let s3 : CStereoOp := { s2 with oldScale_i := s2.m_scale_i }
        if tmpLeft.type ≠ CV_8UC1 then
          if tmpLeft.type = CV_8UC3 then
            let l : Mat := ⟨tmpLeft.width, tmpLeft.height, CV_8UC1⟩
            let r : Mat := ⟨tmpLeft.width, tmpLeft.height, CV_8UC1⟩
            if s3.m_scale_i > 1 then
              let res := CStereoOp.finishCycle h s3 vec.1 (disparityOf l r)
              some (true, res.1, res.2, out)
            else
              let res := CStereoOp.finishCycle h { s3 with m_dispImg := disparityOf l r } vec.1
                auxImg
              some (true, res.1, res.2, out)
          else some (false, s3, h, out ++ [Diag.requiredImageFormat])
        else
          if s3.m_scale_i > 1 then
            let res := CStereoOp.finishCycle h s3 vec.1 (disparityOf tmpLeft tmpRight)
            some (true, res.1, res.2, out)
          else
            let res := CStereoOp.finishCycle h
              { s3 with m_dispImg := disparityOf tmpLeft tmpRight } vec.1 auxImg
            some (true, res.1, res.2, out)
  else some (false, s, h, [Diag.invalidInputImages])

/-- A memory in which every address holds an empty image and an empty image vector. -/
def emptyMemory : Memory := ⟨fun _ => Mat.default, fun _ => []⟩

/-- A scaler that leaves the image pair as it is. -/
def idScaler : Mat → Mat → Mat × Mat := fun l r => (l, r)

/-! ## Bounded parameter access of the stereo operator -/

/-- Modelled from the spec: the setter `setDownscale` that
`ADD_PARAM_ACCESS_BOUNDED (int, m_scale_i, Downscale, 1, 6 )` gives `CStereoOp`; the macro is
defined in `paramMacros.h`, which is missing from the sources. "Bounded-integer parameters
enforce their range on every set": a value below the lower bound is stored as the lower bound,
a value above the upper bound as the upper bound ("set to 9 clamps to 6; set to -1 clamps to
1"). -/
def CStereoOp.setDownscale (s : CStereoOp) (f_newVal : Int) : CStereoOp :=
  { s with m_scale_i := if f_newVal < 1 then 1 else if 6 < f_newVal then 6 else f_newVal }

/-! ## Enumeration parameters: the base class -/

/-- The class `CEnumParameterBase`, with what its constructor receives. -/
structure CEnumParameterBase where
  /-- Name of the parameter. -/
  f_name_str : String
  /-- Comment of the parameter. -/
  f_comment_str : String
  deriving DecidableEq, Repr

/-- The member `CEnumParameterBase::getStringFromValue`. -/
def CEnumParameterBase.getStringFromValue (_p : CEnumParameterBase) : String := ""

/-- The member `CEnumParameterBase::setValueFromString`: the result and the parameter
afterwards. -/
def CEnumParameterBase.setValueFromString (p : CEnumParameterBase) (_f_val_str : String) :
    Bool × CEnumParameterBase :=
  (false, p)

/-! ## The node tree -/

/-- Modelled from the spec: the class `CNode` of `node.h`, which is missing from the sources.
"Node: identity (name, string), parent reference (non-owning, optional), ordered sequence of
owned child Nodes." -/
structure CNode where
  /-- Name of the node. -/
  m_name_str : String
  /-- Parent node, `none` for `NULL`. -/
  m_parent_p : Option OpId
  /-- Children, in order. -/
  m_children_v : List OpId
  deriving DecidableEq, Repr

/-- All nodes of the program, by address. -/
abbrev NodeTree := OpId → CNode

/-- Modelled from the spec: the member `CNode::addChild` called on `parent`; `node.h` and its
implementation are missing from the sources. "`attachChild(parent, child)` inserts child at the
end of parent's child sequence and sets child's parent; fails if child already has a parent
(must detach first)." Returns success and the tree afterwards. -/
def addChild (t : NodeTree) (parent child : OpId) : Bool × NodeTree :=
  match (t child).m_parent_p with
  | some _ => (false, t)
  | none =>
    let t1 : NodeTree := fun o =>
      if o = parent then { t o with m_children_v := (t o).m_children_v ++ [child] } else t o
    let t2 : NodeTree := fun o =>
      if o = child then { t1 o with m_parent_p := some parent } else t1 o
    (true, t2)

/-! ## The parameter page of the editor dialog -/

/-- What the chain of `dynamic_cast`s in `CParameterEditorDlg::reloadParameterPage` tells apart
about a parameter. -/
inductive ParamKind where
  /-- A `CParamLineSeparator`. -/
  | lineSeparator
  /-- A `CParameterGroup`, the begin marker of a group. -/
  | group
  /-- A `CParameterGroupEnd`. -/
  | groupEnd
  /-- Any other parameter. -/
  | other
  deriving DecidableEq, Repr

/-- Messages printed by `reloadParameterPage`. -/
inductive PageDiag where
  /-- `The maximal amount of levels has been achieved. No more parameter subgroupping
  possible.` -/
  | maximalLevels
  /-- `Too many objects of CParameterGroupEnd for this page.` -/
  | tooManyGroupEnds
  deriving DecidableEq, Repr

/-- The constant `maxGroupLevel_i`, also the length of the array `groupGrids_p`. -/
def maxGroupLevel_i : Int := 16

/-- The local variables of `reloadParameterPage` that steer the grouping. A grid layout is
named by a number: `0` is the grid of the page, `i + 1` the grid made for the group that
parameter `i` begins; `none` is an indeterminate pointer. `groupGrids_p j` is what slot `j`
holds (the array of the code has the slots `0 .. maxGroupLevel_i - 1`), `accessed` lists the
indices with which `groupGrids_p` was read or written, in order. -/
structure PageState where
  /-- The level counter. -/
  currLevel_i : Int
  /-- The grid that receives the next widgets. -/
  grid_p : Option Nat
  /-- Content of the slots. -/
  groupGrids_p : Int → Option Nat
  /-- Indices used on `groupGrids_p` so far. -/
  accessed : List Int
  /-- Messages printed so far. -/
  printed : List PageDiag

/-- The state before the loop: `currLevel_i = 0; groupGrids_p[0] = grid_p;`. -/
def PageState.init : PageState :=
  { currLevel_i := 0
    grid_p := some 0
    groupGrids_p := fun j => if j = 0 then some 0 else none
    accessed := [0]
    printed := [] }

/-- One pass of the loop body of `reloadParameterPage`, for parameter number `i` of kind `k`,
as a trace: a subscript of `groupGrids_p` is recorded in `accessed` whatever its value, also
when it is not one of the slots of the array. `PageState.stepBounded` is the pass with the
bounds of the array honoured. -/
def PageState.step (st : PageState) (i : Nat) (k : ParamKind) : PageState :=
  match k with
  | ParamKind.lineSeparator => st
  | ParamKind.group =>
    if st.currLevel_i < maxGroupLevel_i then
      let lvl : Int := st.currLevel_i + 1
      { st with
        currLevel_i := lvl
        grid_p := some (i + 1)
        groupGrids_p := fun j => if j = lvl then some (i + 1) else st.groupGrids_p j
        accessed := st.accessed ++ [lvl] }
    else { st with printed := st.printed ++ [PageDiag.maximalLevels] }
  | ParamKind.groupEnd =>
    if st.currLevel_i > 0 then
      let lvl : Int := st.currLevel_i - 1
      { st with
        currLevel_i := lvl
        grid_p := st.groupGrids_p lvl
        accessed := st.accessed ++ [lvl] }
    else { st with printed := st.printed ++ [PageDiag.tooManyGroupEnds] }
  | ParamKind.other => st

/-- The loop of `reloadParameterPage` over the parameters from number `i` on. -/
def pageLoop (st : PageState) (i : Nat) : List ParamKind → PageState
  | [] => st
  | k :: rest => pageLoop (st.step i k) (i + 1) rest

/-- The grouping done by `CParameterEditorDlg::reloadParameterPage` for a page with the given
parameters: the loop, then `grid_p = groupGrids_p[currLevel_i]`; the final `grid_p` receives
the closing spacer. -/
def reloadParameterPage (params : List ParamKind) : PageState :=
  let st : PageState := pageLoop PageState.init 0 params
  { st with
    grid_p := st.groupGrids_p st.currLevel_i
    accessed := st.accessed ++ [st.currLevel_i] }

/-- Group-begin and group-end markers are balanced: read from nesting depth `d` on, every
group-end closes a group that is open and no group stays open at the end. -/
def balancedFrom : Nat → List ParamKind → Bool
  | d, [] => d == 0
  | d, ParamKind.group :: rest => balancedFrom (d + 1) rest
  | 0, ParamKind.groupEnd :: _ => false
  | d + 1, ParamKind.groupEnd :: rest => balancedFrom d rest
  | d, ParamKind.lineSeparator :: rest => balancedFrom d rest
  | d, ParamKind.other :: rest => balancedFrom d rest

/-- One pass of the loop body of `reloadParameterPage` on the array
`QGridLayout * groupGrids_p[maxGroupLevel_i]` as declared, with the slots
`0 .. maxGroupLevel_i - 1` only. `none`: the pass subscripts `groupGrids_p` outside of these
slots, and the run has no defined behaviour from there on. -/
def PageState.stepBounded (st : PageState) (i : Nat) (k : ParamKind) : Option PageState :=
  match k with
  | ParamKind.lineSeparator => some st
  | ParamKind.group =>
    if st.currLevel_i < maxGroupLevel_i then
      let lvl : Int := st.currLevel_i + 1
      if 0 ≤ lvl ∧ lvl < maxGroupLevel_i then
        some { st with
          currLevel_i := lvl
          grid_p := some (i + 1)
          groupGrids_p := fun j => if j = lvl then some (i + 1) else st.groupGrids_p j
          accessed := st.accessed ++ [lvl] }
      else none
    else some { st with printed := st.printed ++ [PageDiag.maximalLevels] }
  | ParamKind.groupEnd =>
    if st.currLevel_i > 0 then
      let lvl : Int := st.currLevel_i - 1
      if 0 ≤ lvl ∧ lvl < maxGroupLevel_i then
        some { st with
          currLevel_i := lvl
          grid_p := st.groupGrids_p lvl
          accessed := st.accessed ++ [lvl] }
      else none
    else some { st with printed := st.printed ++ [PageDiag.tooManyGroupEnds] }
  | ParamKind.other => some st

/-- The loop of `reloadParameterPage` over the parameters from number `i` on, on the array as
declared. -/
def pageLoopBounded (st : PageState) (i : Nat) : List ParamKind → Option PageState
  | [] => some st
  | k :: rest =>
    match st.stepBounded i k with
    | none => none
    | some st1 => pageLoopBounded st1 (i + 1) rest

/-- The grouping done by `CParameterEditorDlg::reloadParameterPage` on the array as declared:
the loop, then `grid_p = groupGrids_p[currLevel_i]`; the final `grid_p` receives the closing
spacer. `none`: the run subscripts `groupGrids_p` outside of its slots. -/
def reloadParameterPageBounded (params : List ParamKind) : Option PageState :=
  match pageLoopBounded PageState.init 0 params with
  | none => none
  | some st =>
    if 0 ≤ st.currLevel_i ∧ st.currLevel_i < maxGroupLevel_i then
      some { st with
        grid_p := st.groupGrids_p st.currLevel_i
        accessed := st.accessed ++ [st.currLevel_i] }
    else none

/-- Group-begin and group-end markers are balanced as in `balancedFrom`, and no group lies
deeper than `maxDepth` levels. -/
def balancedWithin (maxDepth : Nat) : Nat → List ParamKind → Bool
  | d, [] => d == 0
  | d, ParamKind.group :: rest => decide (d + 1 ≤ maxDepth) && balancedWithin maxDepth (d + 1) rest
  | 0, ParamKind.groupEnd :: _ => false
  | d + 1, ParamKind.groupEnd :: rest => balancedWithin maxDepth d rest
  | d, ParamKind.lineSeparator :: rest => balancedWithin maxDepth d rest
  | d, ParamKind.other :: rest => balancedWithin maxDepth d rest

/-! ## Small examples -/

/-- A heap of roots with empty registries. -/
def emptyHeap : Heap := fun _ => ⟨none, []⟩

/-- Three operators `0 -> 1 -> 2` (`0` is the root, `1` its child, `2` the child of `1`), all
registries empty. -/
def chain3 : Heap := fun o =>
  if o = 1 then ⟨some 0, []⟩ else if o = 2 then ⟨some 1, []⟩ else ⟨none, []⟩

/-- Operator `0` ("Stereo", a root) with one child, operator `1` ("Scaler"); both registries
are empty. -/
def stereoWithScaler : Heap := fun o =>
  if o = 1 then ⟨some 0, []⟩ else ⟨none, []⟩

/-- Three operators `0 -> 1 -> 2` as in `chain3`, with registries already in use: the root
holds `"Image 0"` (type 1) and `"Images"` (type 2), operator `1` holds `"Image 0"` with another
type and pointer, operator `2` holds `"Disparity"`. -/
def busyTree : Heap := fun o =>
  if o = 0 then ⟨none, [("Image 0", ⟨1, 50⟩), ("Images", ⟨2, 60⟩)]⟩
  else if o = 1 then ⟨some 0, [("Image 0", ⟨3, 70⟩)]⟩
  else if o = 2 then ⟨some 1, [("Disparity", ⟨1, 80⟩)]⟩
  else ⟨none, []⟩

/-- A root operator `0` that holds two images, at the addresses `50` and `51`, under
`"Image 0"` and `"Image 1"`. -/
def stereoHeap : Heap := fun o =>
  if o = 0 then ⟨none, [("Image 0", ⟨typeMat, 50⟩), ("Image 1", ⟨typeMat, 51⟩)]⟩
  else ⟨none, []⟩

/-- A memory in which every image is 640 x 480 of the given type. -/
def uniformMemory (type : Int) : Memory := ⟨fun _ => ⟨640, 480, type⟩, fun _ => []⟩

/-- A node tree as the constructor of `CStereoOp` meets it: node `1`, the scaler, was built
with parent `0`, the stereo operator, which has no children yet. -/
def scalerTree : NodeTree := fun o =>
  if o = 1 then ⟨"Stereo Image Scaler", some 0, []⟩ else ⟨"OpenCV Stereo", none, []⟩

/-! ## Setting the input of the stereo operator -/

/-- The member `CStereoOp::setInput`: the result, the operator afterwards and what was
printed. -/
def CStereoOp.setInput (s : CStereoOp) (f_input_v : List Mat) : Bool × CStereoOp × List Diag :=
  if f_input_v.length < 2 then (false, s, [Diag.requiresTwoImages])
  else
    (true,
      { s with
        m_leftImg := f_input_v.getD 0 Mat.default
        m_rightImg := f_input_v.getD 1 Mat.default },
      [])

/-! ## Children of an operator -/

/-- An element of `CNode::m_children_v`, with the member that `getChild` reads: the child
pointer `ptr_p` (`none` for `NULL`). -/
structure SChildren where
  /-- Pointer to the child. -/
  ptr_p : Option OpId
  deriving DecidableEq, Repr

/-- The expression `static_cast<_OpType> ( ptr_p )`. -/
def static_cast (ptr_p : Option OpId) : Option OpId := ptr_p

/-- Conversion of an `int` to `size_t` (64 bits), as done for the comparison with
`m_children_v.size()` and for the subscript. -/
def intToSize (i : Int) : Int := i % 18446744073709551616

/-- The member `COperator::getChild ( int f_idx_i )` on an operator with the children
`m_children_v`: the pointer returned and what was printed. `none` stands for a read outside of
the child sequence, which has no defined result. -/
def getChildByIndex (m_children_v : List SChildren) (f_idx_i : Int) :
    Option (Option OpId × List Diag) :=
  if intToSize f_idx_i < m_children_v.length then
    match m_children_v.get? (intToSize f_idx_i).toNat with
    | none => none
    | some c =>
      match static_cast c.ptr_p with
      | none => some (none, [Diag.childAtIndexNotOfType f_idx_i])
      | some ptr_p => some (some ptr_p, [])
  else some (none, [])

/-- The member `COperator::getChild ( int f_idx_i ) const`. -/
def getChildByIndexConst (m_children_v : List SChildren) (f_idx_i : Int) :
    Option (Option OpId × List Diag) :=
  if intToSize f_idx_i < m_children_v.length then
    match m_children_v.get? (intToSize f_idx_i).toNat with
    | none => none
    | some c =>
      match static_cast c.ptr_p with
      | none => some (none, [Diag.childAtIndexNotOfType f_idx_i])
      | some ptr_p => some (some ptr_p, [])
  else some (none, [])

/-- The member `COperator::getChild ( std::string f_name_str )`, run over the children not yet
visited: the pointer returned and what was printed. `getName p` is the name of the node at
`p`. `none` stands for the call `ptr_p->getName()` through a null child pointer, which has no
defined result. -/
def getChildByName (getName : OpId → String) (f_name_str : String) :
    List SChildren → Option (Option OpId × List Diag)
  | [] => some (none, [])
  | c :: rest =>
    match c.ptr_p with
    | none => none
    | some q =>
      if getName q = f_name_str then
        match static_cast c.ptr_p with
        | none => some (none, [Diag.childNotOfType f_name_str])
        | some ptr_p => some (some ptr_p, [])
      else getChildByName getName f_name_str rest

/-- The member `COperator::getChild ( std::string f_name_str ) const`. -/
def getChildByNameConst (getName : OpId → String) (f_name_str : String) :
    List SChildren → Option (Option OpId × List Diag)
  | [] => some (none, [])
  | c :: rest =>
    match c.ptr_p with
    | none => none
    | some q =>
      if getName q = f_name_str then
        match static_cast c.ptr_p with
        | none => some (none, [Diag.childNotOfType f_name_str])
        | some ptr_p => some (some ptr_p, [])
      else getChildByNameConst getName f_name_str rest

/-! ## Colours -/

/-- Conversion of an `int` to `uint8_t`. -/
def intToUint8 (x : Int) : Int := x % 256

/-- The struct `SRgba`: four channels of type `uint8_t`. -/
structure SRgba where
  /-- Red. -/
  r : Int
  /-- Green. -/
  g : Int
  /-- Blue. -/
  b : Int
  /-- Alpha. -/
  a : Int
  deriving DecidableEq, Repr

/-- The constructor `SRgba ( const int f_r_i, const int f_g_i, const int f_b_i,
const int f_a_i )`. -/
def SRgba.init (f_r_i f_g_i f_b_i f_a_i : Int) : SRgba :=
  { r := intToUint8 (max (min 255 f_r_i) 0)
    g := intToUint8 (max (min 255 f_g_i) 0)
    b := intToUint8 (max (min 255 f_b_i) 0)
    a := intToUint8 (max (min 255 f_a_i) 0) }

/-- The member `SRgba::set`. -/
def SRgba.set (_c : SRgba) (f_r_i f_g_i f_b_i f_a_i : Int) : SRgba :=
  { r := intToUint8 (max (min 255 f_r_i) 0)
    g := intToUint8 (max (min 255 f_g_i) 0)
    b := intToUint8 (max (min 255 f_b_i) 0)
    a := intToUint8 (max (min 255 f_a_i) 0) }

/-- The struct `SRgb`: three channels of type `uint8_t`. -/
structure SRgb where
  /-- Red. -/
  r : Int
  /-- Green. -/
  g : Int
  /-- Blue. -/
  b : Int
  deriving DecidableEq, Repr

/-- The constructor `SRgb ( const int f_r_i, const int f_g_i, const int f_b_i )`. -/
def SRgb.init (f_r_i f_g_i f_b_i : Int) : SRgb :=
  { r := intToUint8 (max (min 255 f_r_i) 0)
    g := intToUint8 (max (min 255 f_g_i) 0)
    b := intToUint8 (max (min 255 f_b_i) 0) }

/-- The member `SRgb::set`. -/
def SRgb.set (_c : SRgb) (f_r_i f_g_i f_b_i : Int) : SRgb :=
  { r := intToUint8 (max (min 255 f_r_i) 0)
    g := intToUint8 (max (min 255 f_g_i) 0)
    b := intToUint8 (max (min 255 f_b_i) 0) }

/-- The names of the operators `1`, `2`, `3`, used in the examples of `getChild`. -/
def exampleName : OpId → String := fun p =>
  if p = 1 then "Stereo Image Scaler" else if p = 2 then "Rectifier"
  else if p = 3 then "Stereo Image Scaler" else "Unnamed Operator"

/-- A child sequence with the operators `2`, `1`, `3`, in this order. -/
def exampleChildren : List SChildren := [⟨some 2⟩, ⟨some 1⟩, ⟨some 3⟩]

/-! ## The I/O map: basic facts -/

theorem IOMap.find_assign_self (m : IOMap) (k : String) (io : CIOBase)
    (hk : m.find k ≠ none) : (m.assign k io).find k = some io := by
  induction m with
  | nil => simp [IOMap.find] at hk
  | cons e rest ih =>
    obtain ⟨k', io'⟩ := e
    by_cases hkk : k' = k
    · simp [IOMap.assign, IOMap.find, hkk]
    · simp only [IOMap.find, hkk, if_false] at hk
      simp [IOMap.assign, IOMap.find, hkk, ih hk]

theorem IOMap.find_assign_other (m : IOMap) (k k' : String) (io : CIOBase) (hne : k' ≠ k) :
    (m.assign k io).find k' = m.find k' := by
  induction m with
  | nil => simp [IOMap.assign]
  | cons e rest ih =>
    obtain ⟨k0, io0⟩ := e
    by_cases hkk : k0 = k
    · subst hkk
      have : ¬ k0 = k' := fun h => hne h.symm
      simp [IOMap.assign, IOMap.find, this]
    · by_cases hk' : k0 = k'
      · simp [IOMap.assign, IOMap.find, hkk, hk', hne]
      · simp [IOMap.assign, IOMap.find, hkk, hk', ih]

theorem IOMap.keys_assign (m : IOMap) (k : String) (io : CIOBase) :
    (m.assign k io).map Prod.fst = m.map Prod.fst := by
  induction m with
  | nil => simp [IOMap.assign]
  | cons e rest ih =>
    obtain ⟨k0, io0⟩ := e
    by_cases hkk : k0 = k
    · simp [IOMap.assign, hkk]
    · simp [IOMap.assign, hkk, ih]

theorem IOMap.assign_same (m : IOMap) (k : String) (io : CIOBase)
    (hk : m.find k = some io) : m.assign k io = m := by
  induction m with
  | nil => simp [IOMap.assign]
  | cons e rest ih =>
    obtain ⟨k0, io0⟩ := e
    by_cases hkk : k0 = k
    · simp only [IOMap.find, hkk, if_true, Option.some.injEq] at hk
      simp [IOMap.assign, hkk, hk]
    · simp only [IOMap.find, hkk, if_false] at hk
      simp [IOMap.assign, hkk, ih hk]

theorem IOMap.find_eq_none_iff (m : IOMap) (k : String) :
    m.find k = none ↔ k ∉ m.map Prod.fst := by
  induction m with
  | nil => simp [IOMap.find]
  | cons e rest ih =>
    obtain ⟨k0, io0⟩ := e
    by_cases hkk : k0 = k
    · simp [IOMap.find, hkk]
    · have : ¬ k = k0 := fun h => hkk h.symm
      simp [IOMap.find, hkk, ih, this]

theorem IOMap.find_put_self (m : IOMap) (k : String) (io : CIOBase) :
    (m.put k io).find k = some io := by
  unfold IOMap.put
  cases hf : m.find k with
  | none => simp [IOMap.insertNew, IOMap.find]
  | some io0 => exact IOMap.find_assign_self m k io (by simp [hf])

theorem IOMap.find_put_other (m : IOMap) (k k' : String) (io : CIOBase) (hne : k' ≠ k) :
    (m.put k io).find k' = m.find k' := by
  unfold IOMap.put
  cases hf : m.find k with
  | none =>
    have : ¬ k = k' := fun h => hne h.symm
    simp [IOMap.insertNew, IOMap.find, this]
  | some io0 => exact IOMap.find_assign_other m k k' io hne

theorem IOMap.put_put_same (m : IOMap) (k : String) (io : CIOBase) :
    (m.put k io).put k io = m.put k io := by
  have key : ∀ m' : IOMap, m'.find k = some io → m'.put k io = m' := by
    intro m' hm
    unfold IOMap.put
    rw [hm]
    exact IOMap.assign_same m' k io hm
  exact key _ (IOMap.find_put_self m k io)

theorem IOMap.entriesFor_eq_count (m : IOMap) (k : String) :
    m.entriesFor k = (m.map Prod.fst).count k := by
  induction m with
  | nil => simp [IOMap.entriesFor]
  | cons e rest ih =>
    obtain ⟨k0, io0⟩ := e
    unfold IOMap.entriesFor at ih ⊢
    by_cases hkk : k0 = k
    · simp [List.filter, hkk, ih]
    · simp [List.filter, hkk, ih, List.count_cons]

theorem IOMap.size_put_of_find (m : IOMap) (k : String) (io io0 : CIOBase)
    (hk : m.find k = some io0) : (m.put k io).size = m.size := by
  unfold IOMap.put IOMap.size
  rw [hk]
  have := congrArg List.length (IOMap.keys_assign m k io)
  simpa using this

theorem IOMap.keys_put_of_find (m : IOMap) (k : String) (io io0 : CIOBase)
    (hk : m.find k = some io0) : (m.put k io).map Prod.fst = m.map Prod.fst := by
  unfold IOMap.put
  rw [hk]
  exact IOMap.keys_assign m k io

theorem IOMap.wf_put (m : IOMap) (k : String) (io : CIOBase) (hwf : m.WF) :
    (m.put k io).WF := by
  unfold IOMap.put IOMap.WF
  cases hf : m.find k with
  | none =>
    have hnot := (IOMap.find_eq_none_iff m k).1 hf
    simp only [IOMap.insertNew, List.map_cons, List.nodup_cons]
    exact ⟨hnot, hwf⟩
  | some io0 =>
    simp only []
    rw [IOMap.keys_assign]
    exact hwf

theorem IOMap.entriesFor_put (m : IOMap) (k : String) (io : CIOBase) (hwf : m.WF) :
    (m.put k io).entriesFor k = 1 := by
  have hwf2 := IOMap.wf_put m k io hwf
  rw [IOMap.entriesFor_eq_count]
  have hmem : k ∈ (m.put k io).map Prod.fst := by
    by_contra hcon
    have := (IOMap.find_eq_none_iff _ k).2 hcon
    rw [IOMap.find_put_self] at this
    exact Option.noConfusion this
  exact List.count_eq_one_of_mem hwf2 hmem

theorem IOMap.find_of_mem (m : IOMap) (k : String) (io : CIOBase) (hwf : m.WF)
    (hmem : (k, io) ∈ m) : m.find k = some io := by
  induction m with
  | nil => simp at hmem
  | cons e rest ih =>
    obtain ⟨k0, io0⟩ := e
    unfold IOMap.WF at hwf ih
    simp only [List.map_cons, List.nodup_cons] at hwf
    rcases List.mem_cons.1 hmem with heq | hrest
    · cases heq
      simp [IOMap.find]
    · have hk : k ∈ rest.map Prod.fst := List.mem_map.2 ⟨(k, io), hrest, rfl⟩
      have hne : ¬ k0 = k := fun hkk => hwf.1 (hkk ▸ hk)
      simp [IOMap.find, hne, ih hwf.2 hrest]

/-! ## Registration: effect on the heap -/

theorem registerOutputTo_apply (h : Heap) (T : TypeId) (k : String) (v : Ptr) (f o : OpId) :
    registerOutputTo h T k v f o =
      if o = f then { h o with m_ios := (h o).m_ios.put k ( CIO T v) } else h o := by
  by_cases hof : o = f
  · subst hof
    cases hf : (h o).m_ios.find k <;> simp [registerOutputTo, IOMap.put, setIos, hf]
  · cases hf : (h f).m_ios.find k <;> simp [registerOutputTo, setIos, hf, hof]

theorem getParentOp_registerOutputTo (h : Heap) (T : TypeId) (k : String) (v : Ptr)
    (f o : OpId) : getParentOp (registerOutputTo h T k v f) o = getParentOp h o := by
  unfold getParentOp
  rw [registerOutputTo_apply]
  split <;> rfl

theorem ios_registerOutputTo_self (h : Heap) (T : TypeId) (k : String) (v : Ptr) (f : OpId) :
    (registerOutputTo h T k v f f).m_ios = (h f).m_ios.put k ( CIO T v) := by
  rw [registerOutputTo_apply]
  simp

theorem registerOutputTo_other (h : Heap) (T : TypeId) (k : String) (v : Ptr) (f o : OpId)
    (hne : o ≠ f) : registerOutputTo h T k v f o = h o := by
  rw [registerOutputTo_apply]
  simp [hne]

theorem getParentOp_registerOutput (h : Heap) (T : TypeId) (A : OpId) (k : String) (v : Ptr)
    (o : OpId) : getParentOp (registerOutput h T A k v) o = getParentOp h o := by
  unfold registerOutput
  simp only [getParentOp_registerOutputTo]
  cases getParentOp h A with
  | none => simp only [getParentOp_registerOutputTo]
  | some P => simp only [getParentOp_registerOutputTo]

theorem ios_registerOutput_self (h : Heap) (T : TypeId) (A : OpId) (k : String) (v : Ptr) :
    (registerOutput h T A k v A).m_ios = (h A).m_ios.put k ( CIO T v) := by
  unfold registerOutput
  simp only [getParentOp_registerOutputTo]
  cases getParentOp h A with
  | none => exact ios_registerOutputTo_self h T k v A
  | some P =>
    by_cases hPA : P = A
    · subst hPA
      simp only []
      rw [ios_registerOutputTo_self, ios_registerOutputTo_self, IOMap.put_put_same]
    · simp only []
      rw [registerOutputTo_other _ T k v P A (fun hh => hPA hh.symm), ios_registerOutputTo_self]

theorem ios_registerOutput_parent (h : Heap) (T : TypeId) (A P : OpId) (k : String) (v : Ptr)
    (hp : getParentOp h A = some P) :
    (registerOutput h T A k v P).m_ios = (h P).m_ios.put k ( CIO T v) := by
  unfold registerOutput
  simp only [getParentOp_registerOutputTo, hp]
  by_cases hPA : P = A
  · subst hPA
    rw [ios_registerOutputTo_self, ios_registerOutputTo_self, IOMap.put_put_same]
  · rw [ios_registerOutputTo_self, registerOutputTo_other _ T k v A P hPA]

theorem registerOutput_other (h : Heap) (T : TypeId) (A : OpId) (k : String) (v : Ptr)
    (o : OpId) (hA : o ≠ A) (hP : getParentOp h A ≠ some o) :
    registerOutput h T A k v o = h o := by
  unfold registerOutput
  simp only [getParentOp_registerOutputTo]
  cases hp : getParentOp h A with
  | none => exact registerOutputTo_other h T k v A o hA
  | some P =>
    have hoP : o ≠ P := fun hh => hP (by rw [hp, hh])
    simp only []
    rw [registerOutputTo_other _ T k v P o hoP, registerOutputTo_other h T k v A o hA]

/-! ## Lookups: the local cases -/

theorem getOutput_of_find (h : Heap) (T : TypeId) (op : OpId) (k : String) (io : CIOBase)
    (hf : (h op).m_ios.find k = some io) (ht : io.type = T) :
    getOutput h T op k = (io.ptr, []) := by
  simp [getOutput, hf, dynamic_cast, ht, CIOBase.getPtr]

theorem getOutput_of_find_ne (h : Heap) (T : TypeId) (op : OpId) (k : String) (io : CIOBase)
    (hf : (h op).m_ios.find k = some io) (ht : io.type ≠ T) :
    getOutput h T op k = (NULL, [Diag.notOfType k T]) := by
  simp [getOutput, hf, dynamic_cast, ht]

theorem getInput_of_find (h : Heap) (T : TypeId) (op : OpId) (k : String) (io : CIOBase)
    (fuel : Nat) (hf : (h op).m_ios.find k = some io) (ht : io.type = T) :
    getInput h T k (fuel + 1) op = some (io.ptr, []) := by
  simp [getInput, hf, dynamic_cast, ht, CIOBase.getPtr]

theorem getInput_of_find_ne (h : Heap) (T : TypeId) (op : OpId) (k : String) (io : CIOBase)
    (fuel : Nat) (hf : (h op).m_ios.find k = some io) (ht : io.type ≠ T) :
    getInput h T k (fuel + 1) op = some (NULL, [Diag.notOfType k T]) := by
  simp [getInput, hf, dynamic_cast, ht]

theorem getInputConst_of_find (h : Heap) (T : TypeId) (op : OpId) (k : String) (io : CIOBase)
    (fuel : Nat) (hf : (h op).m_ios.find k = some io) (ht : io.type = T) :
    getInputConst h T k (fuel + 1) op = some (io.ptr, []) := by
  simp [getInputConst, hf, dynamic_cast, ht, CIOBase.getPtr]

theorem getInputConst_of_find_ne (h : Heap) (T : TypeId) (op : OpId) (k : String)
    (io : CIOBase) (fuel : Nat) (hf : (h op).m_ios.find k = some io) (ht : io.type ≠ T) :
    getInputConst h T k (fuel + 1) op = some (NULL, [Diag.notOfType k T]) := by
  simp [getInputConst, hf, dynamic_cast, ht]

/-! ## Publishing and looking up -/

/-- C1: an operator `A` with parent `P` registers pointer `v` of type `T` under `key`; whatever
the registries held before, the lookup of `key` with type `T` on `P` (both `getInput` overloads
and `getOutput`) returns exactly `v` and prints nothing. -/
theorem registerOutput_reaches_parent (h : Heap) (T : TypeId) (A P : OpId) (key : String)
    (v : Ptr) (fuel : Nat) (hparent : getParentOp h A = some P) :
    getInput (registerOutput h T A key v) T key (fuel + 1) P = some (v, []) ∧
    getInputConst (registerOutput h T A key v) T key (fuel + 1) P = some (v, []) ∧
    getOutput (registerOutput h T A key v) T P key = (v, []) := by
  have hf : ((registerOutput h T A key v) P).m_ios.find key = some ( CIO T v) := by
    rw [ios_registerOutput_parent h T A P key v hparent]
    exact IOMap.find_put_self _ key _
  exact ⟨getInput_of_find _ T P key _ fuel hf rfl, getInputConst_of_find _ T P key _ fuel hf rfl,
    getOutput_of_find _ T P key _ hf rfl⟩

/-- Witness of C1: operator `1` of `busyTree` holds `"Image 0"` with another type, its child `2`
registers `"Image 0"` anew. -/
theorem registerOutput_reaches_parent_witness :
    getParentOp busyTree 2 = some 1 ∧
    (getInput (registerOutput busyTree 1 2 "Image 0" 100) 1 "Image 0" (0 + 1) 1 = some (100, []) ∧
    getInputConst (registerOutput busyTree 1 2 "Image 0" 100) 1 "Image 0" (0 + 1) 1
      = some (100, []) ∧
    getOutput (registerOutput busyTree 1 2 "Image 0" 100) 1 1 "Image 0" = (100, [])) :=
  ⟨by decide, registerOutput_reaches_parent busyTree 1 2 1 "Image 0" 100 0 (by decide)⟩

/-- C7: after operator `A` registers pointer `v` of type `T` under `key`, the lookup of `key`
with type `T` on `A` itself (`getOutput` and both `getInput` overloads) returns exactly `v`,
whatever the heap, hence whatever the ancestors of `A` hold under `key`. -/
theorem registerOutput_visible_locally (h : Heap) (T : TypeId) (A : OpId) (key : String)
    (v : Ptr) (fuel : Nat) :
    getOutput (registerOutput h T A key v) T A key = (v, []) ∧
    getInput (registerOutput h T A key v) T key (fuel + 1) A = some (v, []) ∧
    getInputConst (registerOutput h T A key v) T key (fuel + 1) A = some (v, []) := by
  have hf : ((registerOutput h T A key v) A).m_ios.find key = some ( CIO T v) := by
    rw [ios_registerOutput_self h T A key v]
    exact IOMap.find_put_self _ key _
  exact ⟨getOutput_of_find _ T A key _ hf rfl, getInput_of_find _ T A key _ fuel hf rfl,
    getInputConst_of_find _ T A key _ fuel hf rfl⟩

/-! ## Absent keys -/

theorem ancestor_succ_of_parent (h : Heap) (n : Nat) (op p : OpId)
    (hp : getParentOp h op = some p) : ancestor h (n + 1) op = ancestor h n p := by
  simp [ancestor, hp]

theorem lookups_of_absent {R : Type} (h : Heap) (T : TypeId) (deref : Ptr → R) (key : String)
    (dflt : R) (d : Nat) :
    ∀ (op : OpId) (fuel : Nat), hasDepth h d op = true →
      (∀ n a, ancestor h n op = some a → (h a).m_ios.find key = none) → d < fuel →
      getInput h T key fuel op = some (NULL, [Diag.notFound key]) ∧
      getInputConst h T key fuel op = some (NULL, [Diag.notFound key]) ∧
      getInputDefault h T deref key dflt fuel op = some (dflt, [Diag.notFound key]) := by
  induction d with
  | zero =>
    intro op fuel hd habs hfuel
    obtain ⟨f, rfl⟩ : ∃ f, fuel = f + 1 := ⟨fuel - 1, by omega⟩
    have hloc : (h op).m_ios.find key = none := habs 0 op rfl
    have hpar : getParentOp h op = none := by
      simpa [hasDepth, Option.isNone_iff_eq_none] using hd
    simp [getInput, getInputConst, getInputDefault, hloc, hpar]
  | succ d ih =>
    intro op fuel hd habs hfuel
    obtain ⟨f, rfl⟩ : ∃ f, fuel = f + 1 := ⟨fuel - 1, by omega⟩
    have hloc : (h op).m_ios.find key = none := habs 0 op rfl
    cases hpar : getParentOp h op with
    | none => simp [hasDepth, hpar] at hd
    | some p =>
      have hd2 : hasDepth h d p = true := by simpa [hasDepth, hpar] using hd
      have habs2 : ∀ n a, ancestor h n p = some a → (h a).m_ios.find key = none := by
        intro n a hna
        exact habs (n + 1) a (by rw [ancestor_succ_of_parent h n op p hpar]; exact hna)
      have := ih p f hd2 habs2 (by omega)
      simpa [getInput, getInputConst, getInputDefault, hloc, hpar] using this

/-- C2: operator `op` has `d` ancestors and `key` is in the registry of neither `op` nor any of
its ancestors. Then, visiting at most `d + 1` operators, both `getInput<T>(key)` overloads
return `NULL` and `getInput<T>(key, default)` returns exactly the supplied default; each prints
the "not found" message. -/
theorem getInput_absent_everywhere {R : Type} (h : Heap) (T : TypeId) (deref : Ptr → R)
    (key : String) (dflt : R) (d : Nat) (op : OpId) (fuel : Nat)
    (hdepth : hasDepth h d op = true)
    (habsent : ∀ n a, ancestor h n op = some a → (h a).m_ios.find key = none)
    (hfuel : d < fuel) :
    getInput h T key fuel op = some (NULL, [Diag.notFound key]) ∧
    getInputConst h T key fuel op = some (NULL, [Diag.notFound key]) ∧
    getInputDefault h T deref key dflt fuel op = some (dflt, [Diag.notFound key]) :=
  lookups_of_absent h T deref key dflt d op fuel hdepth habsent hfuel

theorem busyTree_lacks_right_image :
    ∀ n a, ancestor busyTree n 2 = some a → (busyTree a).m_ios.find "Image 1" = none := by
  intro n a hna
  rcases n with _ | _ | _ | n
  · simp [ancestor] at hna; subst hna; decide
  · simp [ancestor, getParentOp, busyTree] at hna; subst hna; decide
  · simp [ancestor, getParentOp, busyTree] at hna; subst hna; decide
  · simp [ancestor, getParentOp, busyTree] at hna

/-- Witness of C2: `"Image 1"` is nowhere on the path from operator `2` of `busyTree` to the
root; the default is the object `7`. -/
theorem getInput_absent_everywhere_witness :
    hasDepth busyTree 2 2 = true ∧ 2 < 3 ∧
    (getInput busyTree 1 "Image 1" 3 2 = some (NULL, [Diag.notFound "Image 1"]) ∧
    getInputConst busyTree 1 "Image 1" 3 2 = some (NULL, [Diag.notFound "Image 1"]) ∧
    getInputDefault busyTree 1 (fun p => p + 1000) "Image 1" 7 3 2
      = some (7, [Diag.notFound "Image 1"])) :=
  ⟨by decide, by decide,
    getInput_absent_everywhere busyTree 1 (fun p => p + 1000) "Image 1" 7 2 2 3 (by decide)
      busyTree_lacks_right_image (by decide)⟩

/-! ## Type check -/

/-- C4: operator `op` holds `key` locally with stored type `S` and pointer `v`. A lookup with
type `S` returns `v`; lookups do not change the heap, so a second lookup runs in the same heap
and returns `v` again. A lookup with any type `T` other than `S` returns `NULL` and prints the
"not of type" message. -/
theorem lookup_checks_type (h : Heap) (op : OpId) (key : String) (S : TypeId) (v : Ptr)
    (fuel fuel2 : Nat) (hheld : (h op).m_ios.find key = some ( CIO S v)) :
    (getInput h S key (fuel + 1) op = some (v, []) ∧
     getInput h S key (fuel2 + 1) op = some (v, []) ∧
     getInputConst h S key (fuel + 1) op = some (v, []) ∧
     getOutput h S op key = (v, [])) ∧
    ∀ T, T ≠ S →
      getInput h T key (fuel + 1) op = some (NULL, [Diag.notOfType key T]) ∧
      getInputConst h T key (fuel + 1) op = some (NULL, [Diag.notOfType key T]) ∧
      getOutput h T op key = (NULL, [Diag.notOfType key T]) := by
  refine ⟨⟨getInput_of_find h S op key _ fuel hheld rfl,
    getInput_of_find h S op key _ fuel2 hheld rfl,
    getInputConst_of_find h S op key _ fuel hheld rfl,
    getOutput_of_find h S op key _ hheld rfl⟩, ?_⟩
  intro T hT
  have hne : ( CIO S v).type ≠ T := fun hh => hT hh.symm
  exact ⟨getInput_of_find_ne h T op key _ fuel hheld hne,
    getInputConst_of_find_ne h T op key _ fuel hheld hne,
    getOutput_of_find_ne h T op key _ hheld hne⟩

/-- Witness of C4: operator `1` of `busyTree` holds `"Image 0"` with type `3` and pointer
`70`. -/
theorem lookup_checks_type_witness :
    (busyTree 1).m_ios.find "Image 0" = some ( CIO 3 70) ∧
    ((getInput busyTree 3 "Image 0" (0 + 1) 1 = some (70, []) ∧
      getInput busyTree 3 "Image 0" (4 + 1) 1 = some (70, []) ∧
      getInputConst busyTree 3 "Image 0" (0 + 1) 1 = some (70, []) ∧
      getOutput busyTree 3 1 "Image 0" = (70, [])) ∧
    ∀ T, T ≠ 3 →
      getInput busyTree T "Image 0" (0 + 1) 1 = some (NULL, [Diag.notOfType "Image 0" T]) ∧
      getInputConst busyTree T "Image 0" (0 + 1) 1
        = some (NULL, [Diag.notOfType "Image 0" T]) ∧
      getOutput busyTree T 1 "Image 0" = (NULL, [Diag.notOfType "Image 0" T])) :=
  ⟨by decide, lookup_checks_type busyTree 1 "Image 0" 3 70 0 4 (by decide)⟩

/-! ## Resolution order -/

/-- C8: resolution order of `getInput<T>(key)` (both overloads) on operator `op`, in any heap,
hence whatever the ancestors hold: (1) if `op` holds `key` locally with type `T`, the local
pointer is returned; (2) if `key` is absent locally and `op` has parent `p`, the result is the
result of `getInput<T>(key)` on `p`; (3) if `key` is absent locally and `op` has no parent, the
result is `NULL`. -/
theorem getInput_resolution_order (h : Heap) (T : TypeId) (op : OpId) (key : String)
    (fuel : Nat) :
    (∀ v, (h op).m_ios.find key = some ( CIO T v) →
      getInput h T key (fuel + 1) op = some (v, []) ∧
      getInputConst h T key (fuel + 1) op = some (v, [])) ∧
    (∀ p, (h op).m_ios.find key = none → getParentOp h op = some p →
      getInput h T key (fuel + 1) op = getInput h T key fuel p ∧
      getInputConst h T key (fuel + 1) op = getInputConst h T key fuel p) ∧
    ((h op).m_ios.find key = none → getParentOp h op = none →
      getInput h T key (fuel + 1) op = some (NULL, [Diag.notFound key]) ∧
      getInputConst h T key (fuel + 1) op = some (NULL, [Diag.notFound key])) := by
  refine ⟨?_, ?_, ?_⟩
  · intro v hv
    exact ⟨getInput_of_find h T op key _ fuel hv rfl,
      getInputConst_of_find h T op key _ fuel hv rfl⟩
  · intro p hloc hpar
    simp [getInput, getInputConst, hloc, hpar]
  · intro hloc hpar
    simp [getInput, getInputConst, hloc, hpar]

/-- Witness of C8 on `busyTree`: operator `1` holds `"Image 0"` with type `3` while the root
holds another box under `"Image 0"`; operator `2` lacks `"Images"` and has parent `1`; the root
lacks `"Disparity"`. -/
theorem getInput_resolution_order_witness :
    (getInput busyTree 3 "Image 0" (1 + 1) 1 = some (70, []) ∧
      getInputConst busyTree 3 "Image 0" (1 + 1) 1 = some (70, [])) ∧
    (getInput busyTree 2 "Images" (2 + 1) 2 = getInput busyTree 2 "Images" 2 1 ∧
      getInputConst busyTree 2 "Images" (2 + 1) 2 = getInputConst busyTree 2 "Images" 2 1) ∧
    (getInput busyTree 1 "Disparity" (0 + 1) 0 = some (NULL, [Diag.notFound "Disparity"]) ∧
      getInputConst busyTree 1 "Disparity" (0 + 1) 0
        = some (NULL, [Diag.notFound "Disparity"])) :=
  ⟨(getInput_resolution_order busyTree 3 1 "Image 0" 1).1 70 (by decide),
    (getInput_resolution_order busyTree 2 2 "Images" 2).2.1 1 (by decide) (by decide),
    (getInput_resolution_order busyTree 1 0 "Disparity" 0).2.2 (by decide) (by decide)⟩

/-! ## Publishing twice under one key -/

/-- C3: operator `op` (with a well-formed registry) registers `v1` and then `v2` under the same
`key`. Afterwards the lookup of `key` returns `v2`; for every requested type the lookup gives
`v2` or the failure value, and every entry stored under `key` is the box of `v2`, so the box of
`v1` is gone; the registry holds exactly one entry for `key` and has as many entries as after
the first registration. -/
theorem registerOutput_twice_replaces (h : Heap) (T1 T2 : TypeId) (op : OpId) (key : String)
    (v1 v2 : Ptr) (fuel : Nat) (hwf : (h op).m_ios.WF) :
    getOutput (registerOutput (registerOutput h T1 op key v1) T2 op key v2) T2 op key
      = (v2, []) ∧
    getInput (registerOutput (registerOutput h T1 op key v1) T2 op key v2) T2 key (fuel + 1) op
      = some (v2, []) ∧
    (∀ T, (getOutput (registerOutput (registerOutput h T1 op key v1) T2 op key v2) T op key).1
        = v2 ∨
      (getOutput (registerOutput (registerOutput h T1 op key v1) T2 op key v2) T op key).1
        = NULL) ∧
    (∀ io, (key, io) ∈ ((registerOutput (registerOutput h T1 op key v1) T2 op key v2) op).m_ios →
      io = CIO T2 v2) ∧
    ((registerOutput (registerOutput h T1 op key v1) T2 op key v2) op).m_ios.entriesFor key
      = 1 ∧
    ((registerOutput (registerOutput h T1 op key v1) T2 op key v2) op).m_ios.size
      = ((registerOutput h T1 op key v1) op).m_ios.size := by
  have hm1 : ((registerOutput h T1 op key v1) op).m_ios = (h op).m_ios.put key ( CIO T1 v1) :=
    ios_registerOutput_self h T1 op key v1
  have hm2 : ((registerOutput (registerOutput h T1 op key v1) T2 op key v2) op).m_ios
      = ((h op).m_ios.put key ( CIO T1 v1)).put key ( CIO T2 v2) := by
    rw [ios_registerOutput_self, hm1]
  have hwf1 : ((h op).m_ios.put key ( CIO T1 v1)).WF := IOMap.wf_put _ key _ hwf
  have hwf2 : (((h op).m_ios.put key ( CIO T1 v1)).put key ( CIO T2 v2)).WF :=
    IOMap.wf_put _ key _ hwf1
  have hf2 : ((registerOutput (registerOutput h T1 op key v1) T2 op key v2) op).m_ios.find key
      = some ( CIO T2 v2) := by
    rw [hm2]
    exact IOMap.find_put_self _ key _
  refine ⟨getOutput_of_find _ T2 op key _ hf2 rfl, getInput_of_find _ T2 op key _ fuel hf2 rfl,
    ?_, ?_, ?_, ?_⟩
  · intro T
    by_cases hT : T2 = T
    · left
      rw [getOutput_of_find _ T op key _ hf2 hT]
      rfl
    · right
      rw [getOutput_of_find_ne _ T op key _ hf2 hT]
  · intro io hio
    rw [hm2] at hio
    have hfind := IOMap.find_of_mem _ key io hwf2 hio
    rw [IOMap.find_put_self] at hfind
    exact (Option.some.inj hfind).symm
  · rw [hm2]
    exact IOMap.entriesFor_put _ key _ hwf1
  · rw [hm2, hm1]
    exact IOMap.size_put_of_find _ key _ _ (IOMap.find_put_self _ key _)

/-- Witness of C3: operator `0` of `busyTree` registers `"Disparity"` twice, first with type
`1` and pointer `100`, then with type `2` and pointer `200`. -/
theorem registerOutput_twice_replaces_witness :
    (busyTree 0).m_ios.WF ∧
    getOutput (registerOutput (registerOutput busyTree 1 0 "Disparity" 100) 2 0 "Disparity" 200)
      2 0 "Disparity" = (200, []) ∧
    ((registerOutput (registerOutput busyTree 1 0 "Disparity" 100) 2 0 "Disparity" 200)
      0).m_ios.entriesFor "Disparity" = 1 :=
  ⟨by decide,
    (registerOutput_twice_replaces busyTree 1 2 0 "Disparity" 100 200 0 (by decide)).1,
    (registerOutput_twice_replaces busyTree 1 2 0 "Disparity" 100 200 0 (by decide)).2.2.2.2.1⟩

/-! ## Direction of the fallback and reach of a publication -/

theorem lookups_congr_ancestors {R : Type} (h h2 : Heap) (T : TypeId) (deref : Ptr → R)
    (key : String) (dflt : R) (fuel : Nat) :
    ∀ op : OpId, (∀ n a, ancestor h n op = some a → h2 a = h a) →
      getInput h2 T key fuel op = getInput h T key fuel op ∧
      getInputConst h2 T key fuel op = getInputConst h T key fuel op ∧
      getInputDefault h2 T deref key dflt fuel op = getInputDefault h T deref key dflt fuel op := by
  induction fuel with
  | zero =>
    intro op _
    simp [getInput, getInputConst, getInputDefault]
  | succ f ih =>
    intro op hsame
    have hop : h2 op = h op := hsame 0 op rfl
    have hpar2 : getParentOp h2 op = getParentOp h op := by simp [getParentOp, hop]
    cases hpar : getParentOp h op with
    | none =>
      simp [getInput, getInputConst, getInputDefault, hop, hpar2, hpar]
    | some p =>
      have hsame2 : ∀ n a, ancestor h n p = some a → h2 a = h a := by
        intro n a hna
        exact hsame (n + 1) a (by rw [ancestor_succ_of_parent h n op p hpar]; exact hna)
      obtain ⟨e1, e2, e3⟩ := ih p hsame2
      simp [getInput, getInputConst, getInputDefault, hop, hpar2, hpar, e1, e2, e3]

theorem ancestor_of_root (h : Heap) (op : OpId) (hroot : getParentOp h op = none) :
    ∀ n a, ancestor h n op = some a → a = op := by
  intro n a hna
  cases n with
  | zero => simpa [ancestor] using hna.symm
  | succ n => simp [ancestor, hroot] at hna

/-- C5, as the code has it: operator `C` is a child of `S` and registers pointer `v` of type
`T` under `key`. A later lookup of `key` with type `T` on `S` returns `v` (the object behind
`v` for the overload with a default), because the registration is repeated in the registry of
the direct parent. The lookup itself only walks upwards: on every heap that agrees with `h` on
`S` and on the ancestors of `S`, whatever the other operators hold, the lookups on `S` give the
same result as on `h`. -/
theorem child_registration_read_by_parent {R : Type} (h : Heap) (T : TypeId)
    (deref : Ptr → R) (dflt : R) (S C : OpId) (key : String) (v : Ptr) (fuel : Nat)
    (hchild : getParentOp h C = some S) :
    getInput (registerOutput h T C key v) T key (fuel + 1) S = some (v, []) ∧
    getInputDefault (registerOutput h T C key v) T deref key dflt (fuel + 1) S
      = some (deref v, []) ∧
    ∀ h2 : Heap, (∀ n a, ancestor h n S = some a → h2 a = h a) →
      ∀ (T2 : TypeId) (fuel2 : Nat),
        getInput h2 T2 key fuel2 S = getInput h T2 key fuel2 S ∧
        getInputDefault h2 T2 deref key dflt fuel2 S
          = getInputDefault h T2 deref key dflt fuel2 S := by
  have hf : ((registerOutput h T C key v) S).m_ios.find key = some ( CIO T v) := by
    rw [ios_registerOutput_parent h T C S key v hchild]
    exact IOMap.find_put_self _ key _
  refine ⟨getInput_of_find _ T S key _ fuel hf rfl, ?_, ?_⟩
  · simp [getInputDefault, hf, dynamic_cast, CIO, CIOBase.getPtr]
  · intro h2 hsame T2 fuel2
    obtain ⟨e1, _, e3⟩ := lookups_congr_ancestors h h2 T2 deref key dflt fuel2 S hsame
    exact ⟨e1, e3⟩

/-- Witness of C5 (as the code has it) on `stereoWithScaler`. -/
theorem child_registration_read_by_parent_witness :
    getParentOp stereoWithScaler 1 = some 0 ∧
    getInput (registerOutput stereoWithScaler 1 1 "Image 0" 100) 1 "Image 0" (0 + 1) 0
      = some (100, []) :=
  ⟨by decide,
    (child_registration_read_by_parent stereoWithScaler 1 (fun p => p) 0 0 1 "Image 0" 100 0
      (by decide)).1⟩

/-- C5 fails as stated: "Stereo" (operator `0`, a root) holds nothing under `"Image 0"`, so its
lookup fails before; after its child "Scaler" (operator `1`) registers pointer `100` under
`"Image 0"`, the lookup on "Stereo" returns `100`, not `NULL` and not the default. -/
theorem child_registration_not_missing_for_parent :
    getParentOp stereoWithScaler 1 = some 0 ∧
    getInput stereoWithScaler 1 "Image 0" 2 0 = some (NULL, [Diag.notFound "Image 0"]) ∧
    getInput (registerOutput stereoWithScaler 1 1 "Image 0" 100) 1 "Image 0" 2 0
      = some (100, []) ∧
    getInputDefault (registerOutput stereoWithScaler 1 1 "Image 0" 100) 1 (fun p => p + 1000)
      "Image 0" 7 2 0 = some (1100, []) := by
  decide

/-- C6, as the code has it: `Inner` is a child of `Mid`, `Mid` a child of the root `Outer`.
After `Inner` registers pointer `v` of type `T` under `key`, the lookup of `key` with type `T`
returns `v` on `Inner` and on its direct parent `Mid`. The root `Outer` is left as it was: its
lookups give what they gave before, and `NULL` when `Outer` did not hold `key` itself. -/
theorem registration_stops_at_direct_parent (h : Heap) (T : TypeId) (Outer Mid Inner : OpId)
    (key : String) (v : Ptr) (fuel : Nat)
    (hInner : getParentOp h Inner = some Mid) (hMid : getParentOp h Mid = some Outer)
    (hOuter : getParentOp h Outer = none) :
    getInput (registerOutput h T Inner key v) T key (fuel + 1) Inner = some (v, []) ∧
    getInput (registerOutput h T Inner key v) T key (fuel + 1) Mid = some (v, []) ∧
    (registerOutput h T Inner key v) Outer = h Outer ∧
    (∀ (T2 : TypeId) (fuel2 : Nat),
      getInput (registerOutput h T Inner key v) T2 key fuel2 Outer
        = getInput h T2 key fuel2 Outer) ∧
    ((h Outer).m_ios.find key = none →
      getInput (registerOutput h T Inner key v) T key (fuel + 1) Outer
        = some (NULL, [Diag.notFound key])) := by
  have hne1 : Outer ≠ Inner := by
    intro hh; rw [hh, hInner] at hOuter; exact Option.noConfusion hOuter
  have hne2 : getParentOp h Inner ≠ some Outer := by
    intro hh
    rw [hInner] at hh
    have : Mid = Outer := Option.some.inj hh
    rw [this, hOuter] at hMid
    exact Option.noConfusion hMid
  have hsameOuter : (registerOutput h T Inner key v) Outer = h Outer :=
    registerOutput_other h T Inner key v Outer hne1 hne2
  have hfI : ((registerOutput h T Inner key v) Inner).m_ios.find key = some ( CIO T v) := by
    rw [ios_registerOutput_self h T Inner key v]
    exact IOMap.find_put_self _ key _
  have hfM : ((registerOutput h T Inner key v) Mid).m_ios.find key = some ( CIO T v) := by
    rw [ios_registerOutput_parent h T Inner Mid key v hInner]
    exact IOMap.find_put_self _ key _
  have hcongr : ∀ (T2 : TypeId) (fuel2 : Nat),
      getInput (registerOutput h T Inner key v) T2 key fuel2 Outer
        = getInput h T2 key fuel2 Outer := by
    intro T2 fuel2
    refine (lookups_congr_ancestors h _ T2 (fun p => p) key 0 fuel2 Outer ?_).1
    intro n a hna
    rw [ancestor_of_root h Outer hOuter n a hna]
    exact hsameOuter
  refine ⟨getInput_of_find _ T Inner key _ fuel hfI rfl,
    getInput_of_find _ T Mid key _ fuel hfM rfl, hsameOuter, hcongr, ?_⟩
  intro hnone
  rw [hcongr T (fuel + 1)]
  simp [getInput, hnone, hOuter]

/-- Witness of C6 (as the code has it) on `chain3`: `Outer = 0`, `Mid = 1`, `Inner = 2`. -/
theorem registration_stops_at_direct_parent_witness :
    getParentOp chain3 2 = some 1 ∧ getParentOp chain3 1 = some 0 ∧
    getParentOp chain3 0 = none ∧
    getInput (registerOutput chain3 1 2 "Disparity" 100) 1 "Disparity" (0 + 1) 1
      = some (100, []) ∧
    (registerOutput chain3 1 2 "Disparity" 100) 0 = chain3 0 :=
  ⟨by decide, by decide, by decide,
    (registration_stops_at_direct_parent chain3 1 0 1 2 "Disparity" 100 0
      (by decide) (by decide) (by decide)).2.1,
    (registration_stops_at_direct_parent chain3 1 0 1 2 "Disparity" 100 0
      (by decide) (by decide) (by decide)).2.2.1⟩

/-- C6 fails as stated: in `chain3` (`Outer = 0`, `Mid = 1`, `Inner = 2`) `Inner` registers
pointer `100` under `"Disparity"`; the lookup succeeds on `Mid`, but on the root `Outer` it
returns `NULL` with the "not found" message, however many operators the walk may visit. -/
theorem registration_does_not_reach_root :
    getParentOp chain3 2 = some 1 ∧ getParentOp chain3 1 = some 0 ∧
    getParentOp chain3 0 = none ∧
    getInput (registerOutput chain3 1 2 "Disparity" 100) 1 "Disparity" 3 1 = some (100, []) ∧
    getInput (registerOutput chain3 1 2 "Disparity" 100) 1 "Disparity" 3 0
      = some (NULL, [Diag.notFound "Disparity"]) ∧
    getOutput (registerOutput chain3 1 2 "Disparity" 100) 1 0 "Disparity"
      = (NULL, [Diag.notFound "Disparity"]) := by
  decide

/-! ## The two lookup failures -/

/-- C9, as the code has it: when operator `op1` holds `key` with a stored type other than `T`,
and when `key` is absent from operator `op2` and all its ancestors, `getOutput<T>` and both
`getInput<T>` overloads return the same value, `NULL`; the two cases differ only in the message
printed ("not of type" against "not found"). -/
theorem lookup_failures_return_null (h1 h2 : Heap) (T : TypeId) (op1 op2 : OpId)
    (key : String) (io : CIOBase) (d fuel : Nat)
    (hpresent : (h1 op1).m_ios.find key = some io) (hwrong : io.type ≠ T)
    (hdepth : hasDepth h2 d op2 = true)
    (habsent : ∀ n a, ancestor h2 n op2 = some a → (h2 a).m_ios.find key = none)
    (hfuel : d < fuel) :
    (getOutput h1 T op1 key = (NULL, [Diag.notOfType key T]) ∧
      getOutput h2 T op2 key = (NULL, [Diag.notFound key])) ∧
    (getInput h1 T key fuel op1 = some (NULL, [Diag.notOfType key T]) ∧
      getInput h2 T key fuel op2 = some (NULL, [Diag.notFound key])) ∧
    (getInputConst h1 T key fuel op1 = some (NULL, [Diag.notOfType key T]) ∧
      getInputConst h2 T key fuel op2 = some (NULL, [Diag.notFound key])) := by
  obtain ⟨f, rfl⟩ : ∃ f, fuel = f + 1 := ⟨fuel - 1, by omega⟩
  obtain ⟨e1, e2, _⟩ := lookups_of_absent h2 T (fun p => p) key 0 d op2 (f + 1) hdepth habsent hfuel
  have hloc : (h2 op2).m_ios.find key = none := habsent 0 op2 rfl
  refine ⟨⟨getOutput_of_find_ne h1 T op1 key io hpresent hwrong, ?_⟩,
    ⟨getInput_of_find_ne h1 T op1 key io f hpresent hwrong, e1⟩,
    ⟨getInputConst_of_find_ne h1 T op1 key io f hpresent hwrong, e2⟩⟩
  simp [getOutput, hloc]

theorem chain3_lacks (key : String) :
    ∀ n a, ancestor chain3 n 2 = some a → (chain3 a).m_ios.find key = none := by
  intro n a _
  unfold chain3
  split_ifs <;> rfl

/-- Witness of C9 (as the code has it): operator `1` of `busyTree` holds `"Image 0"` with type
`3` (type `1` is asked for), and `"Image 0"` is nowhere above operator `2` of `chain3`. -/
theorem lookup_failures_return_null_witness :
    (busyTree 1).m_ios.find "Image 0" = some ⟨3, 70⟩ ∧ (3 : TypeId) ≠ 1 ∧
    hasDepth chain3 2 2 = true ∧ 2 < 3 ∧
    (getInput busyTree 1 "Image 0" 3 1 = some (NULL, [Diag.notOfType "Image 0" 1]) ∧
      getInput chain3 1 "Image 0" 3 2 = some (NULL, [Diag.notFound "Image 0"])) :=
  ⟨by decide, by decide, by decide, by decide,
    (lookup_failures_return_null busyTree chain3 1 1 2 "Image 0" ⟨3, 70⟩ 2 3 (by decide)
      (by decide) (by decide) (chain3_lacks "Image 0") (by decide)).2.1⟩

/-- C9 fails as stated: the lookup of `"Image 0"` with type `1` on operator `1` of `busyTree`
(present there with type `3`) and the lookup of `"Image 0"` on operator `2` of `chain3` (absent
everywhere) return the same pointer, `NULL`, from `getInput` as well as from `getOutput`. -/
theorem lookup_failures_not_told_apart :
    (busyTree 1).m_ios.find "Image 0" = some ⟨3, 70⟩ ∧
    (getInput busyTree 1 "Image 0" 3 1).map Prod.fst = some NULL ∧
    (getInput chain3 1 "Image 0" 3 2).map Prod.fst = some NULL ∧
    (getInput busyTree 1 "Image 0" 3 1).map Prod.fst
      = (getInput chain3 1 "Image 0" 3 2).map Prod.fst ∧
    (getOutput busyTree 1 1 "Image 0").1 = (getOutput chain3 1 2 "Image 0").1 := by
  decide

/-! ## The cycle of the stereo operator -/

theorem CStereoOp.cycle_disabled (scaler : Mat → Mat → Mat × Mat) (mem : Memory) (h : Heap)
    (fuel : Nat) (s : CStereoOp) (hoff : s.m_compute_b = false) :
    CStereoOp.cycle scaler mem h fuel s = some (false, s, h, [Diag.invalidInputImages]) := by
  simp [CStereoOp.cycle, hoff]

theorem CStereoOp.cycle_without_input (scaler : Mat → Mat → Mat × Mat) (mem : Memory)
    (h : Heap) (fuel : Nat) (s s1 : CStereoOp) (out : List Diag) (hon : s.m_compute_b = true)
    (hin : CStereoOp.getInput mem h fuel s = some (false, s1, out)) :
    CStereoOp.cycle scaler mem h fuel s = some (true, s1, h, out) := by
  simp [CStereoOp.cycle, hon, hin]

/-- C10 fails on the code: a freshly constructed stereo operator (computation enabled) at the
root of a heap with empty registries finds neither `"Image 0"`, `"Image 1"` nor `"Images"`, so
`CStereoOp::getInput` returns `false`; `cycle` then returns `true`, not `false`. Nothing is
registered, and with computation switched off `cycle` does return `false`. -/
theorem CStereoOp.cycle_true_on_missing_input :
    (CStereoOp.init 0 10 11).m_compute_b = true ∧
    (CStereoOp.getInput emptyMemory emptyHeap 1 (CStereoOp.init 0 10 11)).map (fun r => r.1)
      = some false ∧
    (CStereoOp.cycle idScaler emptyMemory emptyHeap 1 (CStereoOp.init 0 10 11)).map
      (fun r => (r.1, (r.2.2.1 0).m_ios)) = some (true, []) ∧
    (CStereoOp.cycle idScaler emptyMemory emptyHeap 1
      { CStereoOp.init 0 10 11 with m_compute_b := false }).map
      (fun r => (r.1, (r.2.2.1 0).m_ios, r.2.2.2)) = some (false, [], [Diag.invalidInputImages]) := by
  decide

/-! ## The bounded down-scale factor -/

/-- C12: for every integer `x` the value of `m_scale_i` after `setDownscale(x)` is `x` clamped
to `[1, 6]`: it lies in `1 .. 6`, it is `x` when `x` lies there itself, setting `9` stores `6`
and setting `-1` stores `1`. -/
theorem CStereoOp.setDownscale_clamps (s : CStereoOp) (x : Int) :
    (s.setDownscale x).m_scale_i = max 1 (min 6 x) ∧
    1 ≤ (s.setDownscale x).m_scale_i ∧ (s.setDownscale x).m_scale_i ≤ 6 ∧
    (1 ≤ x → x ≤ 6 → (s.setDownscale x).m_scale_i = x) ∧
    (s.setDownscale 9).m_scale_i = 6 ∧ (s.setDownscale (-1)).m_scale_i = 1 := by
  refine ⟨?_, ?_, ?_, ?_, ?_, ?_⟩
  · simp only [CStereoOp.setDownscale]
    split_ifs <;> omega
  · simp only [CStereoOp.setDownscale]
    split_ifs <;> omega
  · simp only [CStereoOp.setDownscale]
    split_ifs <;> omega
  · intro h1 h6
    simp only [CStereoOp.setDownscale]
    split_ifs <;> omega
  · simp [CStereoOp.setDownscale]
  · simp [CStereoOp.setDownscale]

/-- Witness of C12: the freshly constructed operator (factor `2`) is set to `4`, a value
within the bounds. -/
theorem CStereoOp.setDownscale_clamps_witness :
    (1 : Int) ≤ 4 ∧ (4 : Int) ≤ 6 ∧ ((CStereoOp.init 0 10 11).setDownscale 4).m_scale_i = 4 :=
  ⟨by decide, by decide,
    (CStereoOp.setDownscale_clamps (CStereoOp.init 0 10 11) 4).2.2.2.1 (by decide) (by decide)⟩

/-! ## Attaching a child -/

/-- C13: attaching a child whose parent reference is already set fails and leaves the tree
unchanged: `addChild` returns `false`, the tree afterwards is the tree before, so the child
sequence of `parent` is as it was and `child` keeps its parent. -/
theorem addChild_refuses_attached_child (t : NodeTree) (parent child q : OpId)
    (hattached : (t child).m_parent_p = some q) :
    addChild t parent child = (false, t) ∧
    ((addChild t parent child).2 parent).m_children_v = (t parent).m_children_v ∧
    ((addChild t parent child).2 child).m_parent_p = some q := by
  have h : addChild t parent child = (false, t) := by
    simp [addChild, hattached]
  rw [h]
  exact ⟨rfl, rfl, hattached⟩

/-- Witness of C13: in `scalerTree` the scaler `1` was built with parent `0`. -/
theorem addChild_refuses_attached_child_witness :
    (scalerTree 1).m_parent_p = some 0 ∧
    (addChild scalerTree 0 1 = (false, scalerTree) ∧
    ((addChild scalerTree 0 1).2 0).m_children_v = (scalerTree 0).m_children_v ∧
    ((addChild scalerTree 0 1).2 1).m_parent_p = some 0) :=
  ⟨by decide, addChild_refuses_attached_child scalerTree 0 1 0 (by decide)⟩

/-! ## Group levels of the parameter page -/

theorem pageLoopBounded_level_range (params : List ParamKind) :
    ∀ (st st2 : PageState) (i : Nat), 0 ≤ st.currLevel_i → st.currLevel_i ≤ maxGroupLevel_i →
      pageLoopBounded st i params = some st2 →
      0 ≤ st2.currLevel_i ∧ st2.currLevel_i ≤ maxGroupLevel_i := by
  induction params with
  | nil =>
    intro st st2 i h0 h16 hrun
    simp only [pageLoopBounded, Option.some.injEq] at hrun
    subst hrun
    exact ⟨h0, h16⟩
  | cons k rest ih =>
    intro st st2 i h0 h16 hrun
    have hmax : maxGroupLevel_i = 16 := rfl
    simp only [pageLoopBounded] at hrun
    cases hstep : st.stepBounded i k with
    | none => simp [hstep] at hrun
    | some st1 =>
      simp only [hstep] at hrun
      refine ih st1 st2 (i + 1) ?_ ?_ hrun
      · cases k <;> simp only [PageState.stepBounded] at hstep
        · cases hstep; exact h0
        · split_ifs at hstep <;> simp at hstep <;> subst hstep <;> simp <;> omega
        · split_ifs at hstep <;> simp at hstep <;> subst hstep <;> simp <;> omega
        · cases hstep; exact h0
      · cases k <;> simp only [PageState.stepBounded] at hstep
        · cases hstep; exact h16
        · split_ifs at hstep <;> simp at hstep <;> subst hstep <;> simp <;> omega
        · split_ifs at hstep <;> simp at hstep <;> subst hstep <;> simp <;> omega
        · cases hstep; exact h16

theorem pageLoopBounded_of_within (params : List ParamKind) :
    ∀ (st : PageState) (i : Nat) (d : Nat), st.currLevel_i = d → d ≤ 15 →
      st.groupGrids_p 0 = some 0 → balancedWithin 15 d params = true →
      ∃ st2, pageLoopBounded st i params = some st2 ∧ st2.currLevel_i = 0 ∧
        st2.groupGrids_p 0 = some 0 := by
  induction params with
  | nil =>
    intro st i d hd _ hs hb
    have hd0 : d = 0 := by simpa [balancedWithin] using hb
    subst hd0
    exact ⟨st, rfl, by simpa using hd, hs⟩
  | cons k rest ih =>
    intro st i d hd h15 hs hb
    have hmax : maxGroupLevel_i = 16 := rfl
    cases k with
    | lineSeparator =>
      simpa [pageLoopBounded, PageState.stepBounded] using
        ih st (i + 1) d hd h15 hs (by simpa [balancedWithin] using hb)
    | other =>
      simpa [pageLoopBounded, PageState.stepBounded] using
        ih st (i + 1) d hd h15 hs (by simpa [balancedWithin] using hb)
    | group =>
      have hb2 : d + 1 ≤ 15 ∧ balancedWithin 15 (d + 1) rest = true := by
        simpa [balancedWithin] using hb
      have hlt : st.currLevel_i < maxGroupLevel_i := by omega
      have hin : 0 ≤ st.currLevel_i + 1 ∧ st.currLevel_i + 1 < maxGroupLevel_i := by omega
      have hne : ¬ (0 : Int) = st.currLevel_i + 1 := by omega
      simp only [pageLoopBounded, PageState.stepBounded, hlt, hin, if_true, and_self]
      refine ih _ (i + 1) (d + 1) (by simp [hd]) hb2.1 (by simp [hne, hs]) hb2.2
    | groupEnd =>
      cases d with
      | zero => simp [balancedWithin] at hb
      | succ d =>
        have hb2 : balancedWithin 15 d rest = true := by simpa [balancedWithin] using hb
        have hgt : st.currLevel_i > 0 := by omega
        have hin : 0 ≤ st.currLevel_i - 1 ∧ st.currLevel_i - 1 < maxGroupLevel_i := by omega
        simp only [pageLoopBounded, PageState.stepBounded, hgt, hin, if_true, and_self]
        refine ih _ (i + 1) d (by simp [hd]) (by omega) hs hb2

theorem reloadParameterPageBounded_of_within (params : List ParamKind)
    (hb : balancedWithin 15 0 params = true) :
    ∃ st, reloadParameterPageBounded params = some st ∧ st.currLevel_i = 0 ∧
      st.grid_p = some 0 := by
  obtain ⟨st2, hrun, hl, hs⟩ :=
    pageLoopBounded_of_within params PageState.init 0 0 (by simp [PageState.init]) (by omega)
      (by simp [PageState.init]) hb
  have hin : 0 ≤ st2.currLevel_i ∧ st2.currLevel_i < maxGroupLevel_i := by
    rw [hl]
    decide
  refine ⟨{ st2 with
      grid_p := st2.groupGrids_p st2.currLevel_i
      accessed := st2.accessed ++ [st2.currLevel_i] }, ?_, hl, ?_⟩
  · simp only [reloadParameterPageBounded, hrun, hin, and_self, if_true]
  · show st2.groupGrids_p st2.currLevel_i = some 0
    rw [hl]
    exact hs

set_option maxRecDepth 8000 in
/-- C20 fails on the code: on a page whose markers are balanced and nest sixteen deep (sixteen
group-begins, then sixteen group-ends), and likewise seventeen deep, where one group-begin is
beyond the maximum, the walk of `reloadParameterPage` does not come back to level `0` with the
spacer on the grid of the page: its sixteenth group-begin stores to `groupGrids_p[16]`, outside
of the array, and the run has no defined result. With fifteen nested groups the level is back
at `0` and the closing spacer goes to the grid of the page; a group-end at level `0` leaves the
level at `0` with the "too many" message. -/
theorem reloadParameterPageBounded_undefined_from_sixteen :
    balancedFrom 0 (List.replicate 16 ParamKind.group ++ List.replicate 16 ParamKind.groupEnd)
      = true ∧
    (reloadParameterPageBounded
      (List.replicate 16 ParamKind.group ++ List.replicate 16 ParamKind.groupEnd)).isNone
      = true ∧
    balancedFrom 0 (List.replicate 17 ParamKind.group ++ List.replicate 17 ParamKind.groupEnd)
      = true ∧
    (reloadParameterPageBounded
      (List.replicate 17 ParamKind.group ++ List.replicate 17 ParamKind.groupEnd)).isNone
      = true ∧
    (pageLoopBounded PageState.init 0 (List.replicate 16 ParamKind.group)).isNone = true ∧
    (pageLoopBounded PageState.init 0 (List.replicate 15 ParamKind.group)).map
      (fun st => st.accessed) = some [0, 1, 2, 3, 4, 5, 6, 7, 8, 9, 10, 11, 12, 13, 14, 15] ∧
    (reloadParameterPageBounded
      (List.replicate 15 ParamKind.group ++ List.replicate 15 ParamKind.groupEnd)).map
      (fun st => (st.currLevel_i, st.grid_p)) = some (0, some 0) ∧
    (reloadParameterPageBounded [ParamKind.groupEnd]).map
      (fun st => (st.currLevel_i, st.grid_p, st.printed))
      = some (0, some 0, [PageDiag.tooManyGroupEnds]) := by
  decide

/-- C14 fails on the code: on a page with sixteen nested group-begins the sixteenth passes the
test `currLevel_i < maxGroupLevel_i` at level `15`, raises the level to `16` and writes
`groupGrids_p[16]`, which is not one of the sixteen slots `0 .. 15`; the closing spacer reads
slot `16` as well, and nothing is printed. Only the seventeenth group-begin is refused with
the diagnostic. With fifteen group-begins every index is below `16`. -/
theorem reloadParameterPage_uses_slot_sixteen :
    (reloadParameterPage (List.replicate 16 ParamKind.group)).accessed
      = [0, 1, 2, 3, 4, 5, 6, 7, 8, 9, 10, 11, 12, 13, 14, 15, 16, 16] ∧
    ¬ ((16 : Int) < maxGroupLevel_i) ∧
    (reloadParameterPage (List.replicate 16 ParamKind.group)).printed = [] ∧
    (reloadParameterPage (List.replicate 17 ParamKind.group)).printed
      = [PageDiag.maximalLevels] ∧
    (∀ j ∈ (reloadParameterPage (List.replicate 15 ParamKind.group)).accessed,
      j < maxGroupLevel_i) := by
  decide

theorem pageLoop_indices_bounded (params : List ParamKind) :
    ∀ (st : PageState) (i : Nat), 0 ≤ st.currLevel_i → st.currLevel_i ≤ maxGroupLevel_i →
      (∀ j ∈ st.accessed, 0 ≤ j ∧ j ≤ maxGroupLevel_i) →
      (0 ≤ (pageLoop st i params).currLevel_i ∧
        (pageLoop st i params).currLevel_i ≤ maxGroupLevel_i) ∧
      ∀ j ∈ (pageLoop st i params).accessed, 0 ≤ j ∧ j ≤ maxGroupLevel_i := by
  induction params with
  | nil => intro st i h0 h16 hacc; exact ⟨⟨h0, h16⟩, hacc⟩
  | cons k rest ih =>
    intro st i h0 h16 hacc
    have hmax : maxGroupLevel_i = 16 := rfl
    cases k with
    | lineSeparator => exact ih _ (i + 1) h0 h16 hacc
    | other => exact ih _ (i + 1) h0 h16 hacc
    | group =>
      simp only [pageLoop, PageState.step]
      split_ifs with hlt
      · refine ih _ (i + 1) (by simp; omega) (by simp; omega) ?_
        intro j hj
        simp only [List.mem_append, List.mem_singleton] at hj
        rcases hj with hj | hj
        · exact hacc j hj
        · subst hj; omega
      · exact ih _ (i + 1) h0 h16 hacc
    | groupEnd =>
      simp only [pageLoop, PageState.step]
      split_ifs with hgt
      · refine ih _ (i + 1) (by simp; omega) (by simp; omega) ?_
        intro j hj
        simp only [List.mem_append, List.mem_singleton] at hj
        rcases hj with hj | hj
        · exact hacc j hj
        · subst hj; omega
      · exact ih _ (i + 1) h0 h16 hacc

/-! ## Frame of a registration -/

/-- C15: `A.registerOutput(k, v)` changes only the entry for `k` in the registry of `A` and in
the registry of the direct parent of `A`: every operator other than `A` and that parent is
unchanged as a whole, in every registry the entry of every key other than `k` is what it was,
and no parent link changes. -/
theorem registerOutput_frame (h : Heap) (T : TypeId) (A : OpId) (k : String) (v : Ptr) :
    (∀ o, o ≠ A → getParentOp h A ≠ some o → (registerOutput h T A k v) o = h o) ∧
    (∀ o k2, k2 ≠ k → ((registerOutput h T A k v) o).m_ios.find k2 = (h o).m_ios.find k2) ∧
    (∀ o, getParentOp (registerOutput h T A k v) o = getParentOp h o) := by
  refine ⟨fun o hA hP => registerOutput_other h T A k v o hA hP, ?_,
    fun o => getParentOp_registerOutput h T A k v o⟩
  intro o k2 hk
  by_cases hA : o = A
  · subst hA
    rw [ios_registerOutput_self]
    exact IOMap.find_put_other _ k k2 _ hk
  · by_cases hP : getParentOp h A = some o
    · rw [ios_registerOutput_parent h T A o k v hP]
      exact IOMap.find_put_other _ k k2 _ hk
    · rw [registerOutput_other h T A k v o hA hP]

/-- Witness of C15 on `busyTree`: operator `2` registers `"Image 0"`; the root `0`, the
grandparent, is unchanged, and `"Disparity"` in the registry of `2` is what it was. -/
theorem registerOutput_frame_witness :
    (registerOutput busyTree 1 2 "Image 0" 100) 0 = busyTree 0 ∧
    ((registerOutput busyTree 1 2 "Image 0" 100) 2).m_ios.find "Disparity"
      = (busyTree 2).m_ios.find "Disparity" :=
  ⟨(registerOutput_frame busyTree 1 2 "Image 0" 100).1 0 (by decide) (by decide),
    (registerOutput_frame busyTree 1 2 "Image 0" 100).2.1 2 "Disparity" (by decide)⟩

/-! ## Termination of the ancestor walk -/

theorem lookups_return {R : Type} (h : Heap) (T : TypeId) (deref : Ptr → R) (key : String)
    (dflt : R) (d : Nat) :
    ∀ op : OpId, hasDepth h d op = true →
      (∃ r, ∀ fuel, d < fuel → getInput h T key fuel op = some r) ∧
      (∃ r, ∀ fuel, d < fuel → getInputConst h T key fuel op = some r) ∧
      (∃ r, ∀ fuel, d < fuel → getInputDefault h T deref key dflt fuel op = some r) := by
  induction d with
  | zero =>
    intro op hd
    have hpar : getParentOp h op = none := by
      simpa [hasDepth, Option.isNone_iff_eq_none] using hd
    refine ⟨⟨(getInput h T key 1 op).getD (NULL, []), ?_⟩,
      ⟨(getInputConst h T key 1 op).getD (NULL, []), ?_⟩,
      ⟨(getInputDefault h T deref key dflt 1 op).getD (dflt, []), ?_⟩⟩
    · intro fuel hf
      obtain ⟨f, rfl⟩ : ∃ f, fuel = f + 1 := ⟨fuel - 1, by omega⟩
      cases hfind : (h op).m_ios.find key with
      | none => simp [getInput, hfind, hpar]
      | some io => cases hc : dynamic_cast T io <;> simp [getInput, hfind, hc]
    · intro fuel hf
      obtain ⟨f, rfl⟩ : ∃ f, fuel = f + 1 := ⟨fuel - 1, by omega⟩
      cases hfind : (h op).m_ios.find key with
      | none => simp [getInputConst, hfind, hpar]
      | some io => cases hc : dynamic_cast T io <;> simp [getInputConst, hfind, hc]
    · intro fuel hf
      obtain ⟨f, rfl⟩ : ∃ f, fuel = f + 1 := ⟨fuel - 1, by omega⟩
      cases hfind : (h op).m_ios.find key with
      | none => simp [getInputDefault, hfind, hpar]
      | some io => cases hc : dynamic_cast T io <;> simp [getInputDefault, hfind, hc]
  | succ d ih =>
    intro op hd
    cases hpar : getParentOp h op with
    | none => simp [hasDepth, hpar] at hd
    | some p =>
      have hd2 : hasDepth h d p = true := by simpa [hasDepth, hpar] using hd
      obtain ⟨⟨r1, h1⟩, ⟨r2, h2⟩, ⟨r3, h3⟩⟩ := ih p hd2
      cases hfind : (h op).m_ios.find key with
      | none =>
        refine ⟨⟨r1, ?_⟩, ⟨r2, ?_⟩, ⟨r3, ?_⟩⟩
        · intro fuel hf
          obtain ⟨f, rfl⟩ : ∃ f, fuel = f + 1 := ⟨fuel - 1, by omega⟩
          simpa [getInput, hfind, hpar] using h1 f (by omega)
        · intro fuel hf
          obtain ⟨f, rfl⟩ : ∃ f, fuel = f + 1 := ⟨fuel - 1, by omega⟩
          simpa [getInputConst, hfind, hpar] using h2 f (by omega)
        · intro fuel hf
          obtain ⟨f, rfl⟩ : ∃ f, fuel = f + 1 := ⟨fuel - 1, by omega⟩
          simpa [getInputDefault, hfind, hpar] using h3 f (by omega)
      | some io =>
        refine ⟨⟨(getInput h T key 1 op).getD (NULL, []), ?_⟩,
          ⟨(getInputConst h T key 1 op).getD (NULL, []), ?_⟩,
          ⟨(getInputDefault h T deref key dflt 1 op).getD (dflt, []), ?_⟩⟩
        · intro fuel hf
          obtain ⟨f, rfl⟩ : ∃ f, fuel = f + 1 := ⟨fuel - 1, by omega⟩
          cases hc : dynamic_cast T io <;> simp [getInput, hfind, hc]
        · intro fuel hf
          obtain ⟨f, rfl⟩ : ∃ f, fuel = f + 1 := ⟨fuel - 1, by omega⟩
          cases hc : dynamic_cast T io <;> simp [getInputConst, hfind, hc]
        · intro fuel hf
          obtain ⟨f, rfl⟩ : ∃ f, fuel = f + 1 := ⟨fuel - 1, by omega⟩
          cases hc : dynamic_cast T io <;> simp [getInputDefault, hfind, hc]

/-- C16: the ancestor walk terminates. When operator `op` has `d` ancestors (its parent chain
ends at a root after `d` links), `getInput<T>(key)`, its const overload and the overload with a
default each return a result after visiting at most `d + 1` operators, and allowing more visits
does not change the result. -/
theorem getInput_terminates {R : Type} (h : Heap) (T : TypeId) (deref : Ptr → R)
    (key : String) (dflt : R) (d : Nat) (op : OpId) (hdepth : hasDepth h d op = true) :
    (∃ r, getInput h T key (d + 1) op = some r ∧
      ∀ fuel, d < fuel → getInput h T key fuel op = some r) ∧
    (∃ r, getInputConst h T key (d + 1) op = some r ∧
      ∀ fuel, d < fuel → getInputConst h T key fuel op = some r) ∧
    (∃ r, getInputDefault h T deref key dflt (d + 1) op = some r ∧
      ∀ fuel, d < fuel → getInputDefault h T deref key dflt fuel op = some r) := by
  obtain ⟨⟨r1, h1⟩, ⟨r2, h2⟩, ⟨r3, h3⟩⟩ := lookups_return h T deref key dflt d op hdepth
  exact ⟨⟨r1, h1 (d + 1) (by omega), h1⟩, ⟨r2, h2 (d + 1) (by omega), h2⟩,
    ⟨r3, h3 (d + 1) (by omega), h3⟩⟩

/-- Witness of C16: operator `2` of `busyTree` has two ancestors; `"Images"` is held by the
root only. -/
theorem getInput_terminates_witness :
    hasDepth busyTree 2 2 = true ∧
    ∃ r, getInput busyTree 2 "Images" (2 + 1) 2 = some r ∧
      ∀ fuel, 2 < fuel → getInput busyTree 2 "Images" fuel 2 = some r :=
  ⟨by decide,
    (getInput_terminates busyTree 2 (fun p => p) "Images" 0 2 2 (by decide)).1⟩

/-! ## Input selection of the stereo operator -/

theorem CStereoOp.getInput_keeps (mem : Memory) (h : Heap) (fuel : Nat) (s s1 : CStereoOp)
    (b : Bool) (out : List Diag) (hin : CStereoOp.getInput mem h fuel s = some (b, s1, out)) :
    s1 = { s with m_leftImg := s1.m_leftImg, m_rightImg := s1.m_rightImg } := by
  unfold CStereoOp.getInput at hin
  cases hL : getInputDefault h typeMat mem.mat s.m_leftImgId_str Mat.default fuel s.this with
  | none => simp [hL] at hin
  | some pl =>
    cases hR : getInputDefault h typeMat mem.mat s.m_rightImgId_str Mat.default fuel s.this with
    | none => simp [hL, hR] at hin
    | some pr =>
      obtain ⟨l, oL⟩ := pl
      obtain ⟨r, oR⟩ := pr
      simp only [hL, hR] at hin
      by_cases hval : ({ s with m_leftImg := l, m_rightImg := r } : CStereoOp).validateImages
          = true
      · simp only [hval, Bool.not_true, Bool.false_eq_true, if_false, Option.some.injEq,
          Prod.mk.injEq] at hin
        obtain ⟨_, hs, _⟩ := hin
        subst hs
        rfl
      · have hvalf : ({ s with m_leftImg := l, m_rightImg := r } : CStereoOp).validateImages
            = false := by simpa using hval
        cases hV : QCV.getInput h typeMatVector "Images" fuel s.this with
        | none => simp [hvalf, hV] at hin
        | some pv =>
          simp only [hvalf, hV, Bool.not_false, if_true, Option.some.injEq,
            Prod.mk.injEq] at hin
          obtain ⟨_, hs, _⟩ := hin
          subst hs
          split
          · split <;> rfl
          · rfl

/-- C19: computation is enabled, `getInput` succeeds and block matching is selected. If the
type of the left image that reaches the matcher (the output of the scaler, whose type the
resizing keeps) is neither `CV_8UC1` nor `CV_8UC3`, `cycle` prints the "required image format"
message and returns `false`, and the operator heap, hence every registry, is unchanged; only
the numbers of disparities and `oldScale_i` of the operator are updated. -/
theorem CStereoOp.cycle_rejects_image_format (scaler : Mat → Mat → Mat × Mat) (mem : Memory)
    (h : Heap) (fuel : Nat) (s s1 : CStereoOp) (out : List Diag)
    (hon : s.m_compute_b = true)
    (hin : CStereoOp.getInput mem h fuel s = some (true, s1, out))
    (halg : s.m_alg_e = EStereoAlgorithm.SA_BM)
    (hgray : (scaler s1.m_leftImg s1.m_rightImg).1.type ≠ CV_8UC1)
    (hcolour : (scaler s1.m_leftImg s1.m_rightImg).1.type ≠ CV_8UC3) :
    CStereoOp.cycle scaler mem h fuel s =
      some (false,
        { s1 with
          m_sgbm_numberOfDisparities :=
            writtenDisparities s1.m_sgbm_numberOfDisparities s1.m_scale_i
          m_sbm_numberOfDisparities :=
            writtenDisparities s1.m_sbm_numberOfDisparities s1.m_scale_i
          oldScale_i := s1.m_scale_i },
        h, out ++ [Diag.requiredImageFormat]) := by
  have hkeep := CStereoOp.getInput_keeps mem h fuel s s1 true out hin
  have halg1 : s1.m_alg_e = EStereoAlgorithm.SA_BM := by
    rw [hkeep]
    exact halg
  by_cases hscale : 1 < s1.m_scale_i
  · simp [CStereoOp.cycle, hon, hin, halg1, hscale, resize, hgray, hcolour]
  · simp [CStereoOp.cycle, hon, hin, halg1, hscale, hgray, hcolour]

/-- Witness of C19: the two images of `stereoHeap` are of type `CV_16S`. -/
theorem CStereoOp.cycle_rejects_image_format_witness :
    (CStereoOp.init 0 10 11).m_compute_b = true ∧
    (CStereoOp.init 0 10 11).m_alg_e = EStereoAlgorithm.SA_BM ∧
    CStereoOp.cycle idScaler (uniformMemory CV_16S) stereoHeap 1 (CStereoOp.init 0 10 11) =
      some (false,
        { CStereoOp.init 0 10 11 with
          m_leftImg := ⟨640, 480, CV_16S⟩
          m_rightImg := ⟨640, 480, CV_16S⟩
          m_sgbm_numberOfDisparities := writtenDisparities 64 2
          m_sbm_numberOfDisparities := writtenDisparities 64 2
          oldScale_i := 2 },
        stereoHeap, [] ++ [Diag.requiredImageFormat]) :=
  ⟨by decide, by decide,
    CStereoOp.cycle_rejects_image_format idScaler (uniformMemory CV_16S) stereoHeap 1
      (CStereoOp.init 0 10 11)
      { CStereoOp.init 0 10 11 with
        m_leftImg := ⟨640, 480, CV_16S⟩
        m_rightImg := ⟨640, 480, CV_16S⟩ }
      [] (by decide) (by decide) (by decide) (by decide) (by decide)⟩

theorem CStereoOp.finishCycle_registers_float (h : Heap) (s : CStereoOp) (vec0 auxImg : Mat) :
    ((CStereoOp.finishCycle h s vec0 auxImg).2 s.this).m_ios.find
      ("Float " ++ s.m_dispImgId_str) = some ( CIO typeMat s.addr_dispImgFloat) := by
  unfold CStereoOp.finishCycle
  by_cases hscale : s.m_scale_i ≠ 1
  · simp only [if_pos hscale]
    rw [ios_registerOutput_self]
    exact IOMap.find_put_self _ _ _
  · simp only [if_neg hscale]
    rw [ios_registerOutput_self]
    exact IOMap.find_put_self _ _ _

/-- C17 fails on the code: the freshly constructed stereo operator has "Convert to Float"
switched off (`m_convert2Float_b = false`); after a successful cycle on two valid images the
float image `&m_dispImgFloat` is registered under `"Float Disparity Image"` all the same, next
to `&m_dispImg` under `"Disparity Image"`, exactly as with the switch on. -/
theorem CStereoOp.cycle_registers_float_when_switched_off :
    (CStereoOp.init 0 10 11).m_convert2Float_b = false ∧
    (CStereoOp.cycle idScaler (uniformMemory CV_8UC1) stereoHeap 1 (CStereoOp.init 0 10 11)).map
      (fun r => (r.1, (r.2.2.1 0).m_ios.find "Disparity Image",
        (r.2.2.1 0).m_ios.find "Float Disparity Image"))
      = some (true, some ( CIO typeMat 10), some ( CIO typeMat 11)) ∧
    (CStereoOp.cycle idScaler (uniformMemory CV_8UC1) stereoHeap 1
      { CStereoOp.init 0 10 11 with m_convert2Float_b := true }).map
      (fun r => (r.1, (r.2.2.1 0).m_ios.find "Disparity Image",
        (r.2.2.1 0).m_ios.find "Float Disparity Image"))
      = some (true, some ( CIO typeMat 10), some ( CIO typeMat 11)) := by
  decide

/-! ## Lookups decided by the nearest holder of a key -/

theorem lookups_at_nearest {R : Type} (h : Heap) (T : TypeId) (deref : Ptr → R)
    (key : String) (dflt : R) (a : OpId) (io : CIOBase)
    (hheld : (h a).m_ios.find key = some io) (n : Nat) :
    ∀ (op : OpId) (fuel : Nat), ancestor h n op = some a →
      (∀ m b, m < n → ancestor h m op = some b → (h b).m_ios.find key = none) → n < fuel →
      getInput h T key fuel op = getInput h T key 1 a ∧
      getInputConst h T key fuel op = getInputConst h T key 1 a ∧
      getInputDefault h T deref key dflt fuel op = getInputDefault h T deref key dflt 1 a := by
  induction n with
  | zero =>
    intro op fuel hanc _ hfuel
    obtain ⟨f, rfl⟩ : ∃ f, fuel = f + 1 := ⟨fuel - 1, by omega⟩
    have hop : op = a := by simpa [ancestor] using hanc
    subst hop
    simp [getInput, getInputConst, getInputDefault, hheld]
  | succ n ih =>
    intro op fuel hanc hnear hfuel
    obtain ⟨f, rfl⟩ : ∃ f, fuel = f + 1 := ⟨fuel - 1, by omega⟩
    have hloc : (h op).m_ios.find key = none := hnear 0 op (by omega) rfl
    cases hpar : getParentOp h op with
    | none => simp [ancestor, hpar] at hanc
    | some p =>
      have hanc2 : ancestor h n p = some a := by
        rw [← ancestor_succ_of_parent h n op p hpar]
        exact hanc
      have hnear2 : ∀ m b, m < n → ancestor h m p = some b → (h b).m_ios.find key = none := by
        intro m b hm hmb
        exact hnear (m + 1) b (by omega) (by rw [ancestor_succ_of_parent h m op p hpar]; exact hmb)
      have := ih p f hanc2 hnear2 (by omega)
      simpa [getInput, getInputConst, getInputDefault, hloc, hpar] using this

theorem busyTree_images_nearest :
    ∀ m b, m < 2 → ancestor busyTree m 2 = some b → (busyTree b).m_ios.find "Images" = none := by
  intro m b hm hmb
  rcases m with _ | _ | m
  · simp [ancestor] at hmb; subst hmb; decide
  · simp [ancestor, getParentOp, busyTree] at hmb; subst hmb; decide
  · omega

theorem busyTree_left_image_nearest :
    ∀ m b, m < 1 → ancestor busyTree m 2 = some b →
      (busyTree b).m_ios.find "Image 0" = none := by
  intro m b hm hmb
  rcases m with _ | m
  · simp [ancestor] at hmb; subst hmb; decide
  · omega

/-- C21: operator `op` does not hold `key` locally, and the nearest operator on its parent
chain that holds `key` (its parent or an ancestor further up) holds it with type `T` and
pointer `v`. Then `getOutput<T>(key)`, in both overloads, returns `NULL` with the "not found"
message: it does not search the parent. `getInput<T>(key)` on the same operator returns `v`. -/
theorem getOutput_ignores_ancestors (h : Heap) (T : TypeId) (op a : OpId) (key : String)
    (v : Ptr) (n fuel : Nat)
    (hlocal : (h op).m_ios.find key = none)
    (hanc : ancestor h n op = some a)
    (hnear : ∀ m b, m < n → ancestor h m op = some b → (h b).m_ios.find key = none)
    (hheld : (h a).m_ios.find key = some ( CIO T v))
    (hfuel : n < fuel) :
    getOutput h T op key = (NULL, [Diag.notFound key]) ∧
    getOutputConst h T op key = (NULL, [Diag.notFound key]) ∧
    getInput h T key fuel op = some (v, []) := by
  refine ⟨by simp [getOutput, hlocal], by simp [getOutputConst, hlocal], ?_⟩
  rw [(lookups_at_nearest h T (fun q => q) key 0 a _ hheld n op fuel hanc hnear hfuel).1]
  exact getInput_of_find h T a key _ 0 hheld rfl

/-- Witness of C21: operator `2` of `busyTree` lacks `"Images"`, and so does its parent; the
root, two levels up, holds it with type `2` and pointer `60`. -/
theorem getOutput_ignores_ancestors_witness :
    (busyTree 2).m_ios.find "Images" = none ∧ ancestor busyTree 2 2 = some 0 ∧
    (busyTree 0).m_ios.find "Images" = some ( CIO 2 60) ∧ 2 < 3 ∧
    (getOutput busyTree 2 2 "Images" = (NULL, [Diag.notFound "Images"]) ∧
    getOutputConst busyTree 2 2 "Images" = (NULL, [Diag.notFound "Images"]) ∧
    getInput busyTree 2 "Images" 3 2 = some (60, [])) :=
  ⟨by decide, by decide, by decide, by decide,
    getOutput_ignores_ancestors busyTree 2 2 0 "Images" 60 2 3 (by decide) (by decide)
      busyTree_images_nearest (by decide) (by decide)⟩

/-- C22: a wrong-typed entry stops the search. If the nearest operator on the path from `op`
to the root that holds `key` holds it with a stored type other than `T`, then both
`getInput<T>(key)` overloads return `NULL` and `getInput<T>(key, default)` returns the default,
each with the "not of type" message, in every heap, hence also when an ancestor further up
holds `key` with type `T`. -/
theorem getInput_stops_at_wrong_type {R : Type} (h : Heap) (T : TypeId) (deref : Ptr → R)
    (key : String) (dflt : R) (op a : OpId) (io : CIOBase) (n fuel : Nat)
    (hanc : ancestor h n op = some a)
    (hnear : ∀ m b, m < n → ancestor h m op = some b → (h b).m_ios.find key = none)
    (hheld : (h a).m_ios.find key = some io)
    (hwrong : io.type ≠ T)
    (hfuel : n < fuel) :
    getInput h T key fuel op = some (NULL, [Diag.notOfType key T]) ∧
    getInputConst h T key fuel op = some (NULL, [Diag.notOfType key T]) ∧
    getInputDefault h T deref key dflt fuel op = some (dflt, [Diag.notOfType key T]) := by
  obtain ⟨e1, e2, e3⟩ :=
    lookups_at_nearest h T deref key dflt a io hheld n op fuel hanc hnear hfuel
  rw [e1, e2, e3]
  refine ⟨getInput_of_find_ne h T a key io 0 hheld hwrong,
    getInputConst_of_find_ne h T a key io 0 hheld hwrong, ?_⟩
  simp [getInputDefault, hheld, dynamic_cast, hwrong]

/-- Witness of C22: above operator `2` of `busyTree` the nearest holder of `"Image 0"` is
operator `1`, with type `3`; the root holds `"Image 0"` with the type asked for, `1`. -/
theorem getInput_stops_at_wrong_type_witness :
    ancestor busyTree 1 2 = some 1 ∧
    (busyTree 1).m_ios.find "Image 0" = some ⟨3, 70⟩ ∧ (3 : TypeId) ≠ 1 ∧ 1 < 3 ∧
    (busyTree 0).m_ios.find "Image 0" = some ⟨1, 50⟩ ∧
    (getInput busyTree 1 "Image 0" 3 2 = some (NULL, [Diag.notOfType "Image 0" 1]) ∧
    getInputConst busyTree 1 "Image 0" 3 2 = some (NULL, [Diag.notOfType "Image 0" 1]) ∧
    getInputDefault busyTree 1 (fun q => q + 1000) "Image 0" 7 3 2
      = some (7, [Diag.notOfType "Image 0" 1])) :=
  ⟨by decide, by decide, by decide, by decide, by decide,
    getInput_stops_at_wrong_type busyTree 1 (fun q => q + 1000) "Image 0" 7 2 1 ⟨3, 70⟩ 1 3
      (by decide) busyTree_left_image_nearest (by decide) (by decide) (by decide)⟩

/-! ## Agreement of the lookup variants -/

theorem getInputConst_eq_getInput (h : Heap) (T : TypeId) (key : String) (fuel : Nat) :
    ∀ op : OpId, getInputConst h T key fuel op = getInput h T key fuel op := by
  induction fuel with
  | zero => intro op; rfl
  | succ f ih =>
    intro op
    cases hfind : (h op).m_ios.find key with
    | none =>
      cases hpar : getParentOp h op with
      | none => simp [getInput, getInputConst, hfind, hpar]
      | some p => simp [getInput, getInputConst, hfind, hpar, ih p]
    | some io => simp [getInput, getInputConst, hfind]

theorem getInputDefault_eq_map {R : Type} (h : Heap) (T : TypeId) (deref : Ptr → R)
    (key : String) (dflt : R) (fuel : Nat) :
    ∀ op : OpId, getInputDefault h T deref key dflt fuel op =
      (getInput h T key fuel op).map
        (fun r => if r.2 = [] then (deref r.1, []) else (dflt, r.2)) := by
  induction fuel with
  | zero => intro op; rfl
  | succ f ih =>
    intro op
    cases hfind : (h op).m_ios.find key with
    | none =>
      cases hpar : getParentOp h op with
      | none => simp [getInput, getInputDefault, hfind, hpar]
      | some p => simp [getInput, getInputDefault, hfind, hpar, ih p]
    | some io =>
      cases hc : dynamic_cast T io with
      | none => simp [getInput, getInputDefault, hfind, hc]
      | some c => simp [getInput, getInputDefault, hfind, hc]

theorem getInput_pointer_or_message (h : Heap) (T : TypeId) (key : String) (fuel : Nat) :
    ∀ (op : OpId) (q : Ptr) (out : List Diag),
      getInput h T key fuel op = some (q, out) → out = [] ∨ (q = NULL ∧ out ≠ []) := by
  induction fuel with
  | zero => intro op q out hget; simp [getInput] at hget
  | succ f ih =>
    intro op q out hget
    cases hfind : (h op).m_ios.find key with
    | none =>
      cases hpar : getParentOp h op with
      | none =>
        simp [getInput, hfind, hpar] at hget
        right
        exact ⟨hget.1.symm, by rw [← hget.2]; simp⟩
      | some p =>
        simp only [getInput, hfind, hpar] at hget
        exact ih p q out hget
    | some io =>
      cases hc : dynamic_cast T io with
      | none =>
        simp [getInput, hfind, hc] at hget
        right
        exact ⟨hget.1.symm, by rw [← hget.2]; simp⟩
      | some c =>
        simp [getInput, hfind, hc] at hget
        left
        exact hget.2

/-- C23, as the code has it: for every heap, operator, key, type `T` and number of visits the
const and the non-const `getInput<T>(key)` give the same result. `getInput<T>(key, default)`
returns the object behind the pointer of `getInput<T>(key)` when that lookup succeeds (prints
nothing), in particular whenever the pointer is not `NULL`, and the default when the lookup
fails (prints a message). A pointer that was registered as `NULL` is dereferenced all the same,
the default is not returned for it. When `key` is held locally, `getOutput<T>(key)` gives the
result of `getInput<T>(key)`. -/
theorem lookup_variants_agree {R : Type} (h : Heap) (T : TypeId) (deref : Ptr → R)
    (key : String) (dflt : R) (fuel : Nat) (op : OpId) :
    getInputConst h T key fuel op = getInput h T key fuel op ∧
    getInputDefault h T deref key dflt fuel op =
      (getInput h T key fuel op).map
        (fun r => if r.2 = [] then (deref r.1, []) else (dflt, r.2)) ∧
    (∀ q out, getInput h T key fuel op = some (q, out) → q ≠ NULL →
      getInputDefault h T deref key dflt fuel op = some (deref q, [])) ∧
    (∀ q out, getInput h T key fuel op = some (q, out) → out ≠ [] →
      q = NULL ∧ getInputDefault h T deref key dflt fuel op = some (dflt, out)) ∧
    (∀ io, (h op).m_ios.find key = some io →
      getInput h T key (fuel + 1) op = some (getOutput h T op key)) := by
  have hmap := getInputDefault_eq_map h T deref key dflt fuel op
  refine ⟨getInputConst_eq_getInput h T key fuel op, hmap, ?_, ?_, ?_⟩
  · intro q out hget hq
    rcases getInput_pointer_or_message h T key fuel op q out hget with hout | ⟨hnull, _⟩
    · rw [hmap, hget, hout]
      simp
    · exact absurd hnull hq
  · intro q out hget hout
    rcases getInput_pointer_or_message h T key fuel op q out hget with hempty | ⟨hnull, _⟩
    · exact absurd hempty hout
    · refine ⟨hnull, ?_⟩
      rw [hmap, hget]
      simp [hout]
  · intro io hio
    cases hc : dynamic_cast T io <;> simp [getInput, getOutput, hio, hc]

/-- Witness of C23 (as the code has it): `"Images"` asked for on operator `2` of `busyTree`
comes from the root with pointer `60`; `"Image 0"` is held locally by operator `1`. -/
theorem lookup_variants_agree_witness :
    getInput busyTree 2 "Images" 3 2 = some (60, []) ∧ (60 : Ptr) ≠ NULL ∧
    getInputDefault busyTree 2 (fun q => q + 1000) "Images" 7 3 2 = some (1060, []) ∧
    (busyTree 1).m_ios.find "Image 0" = some ⟨3, 70⟩ ∧
    getInput busyTree 3 "Image 0" (0 + 1) 1 = some (getOutput busyTree 3 1 "Image 0") :=
  ⟨by decide, by decide,
    (lookup_variants_agree busyTree 2 (fun q => q + 1000) "Images" 7 3 2).2.2.1 60 []
      (by decide) (by decide),
    by decide,
    (lookup_variants_agree busyTree 3 (fun q => q) "Image 0" 0 0 1).2.2.2.2 ⟨3, 70⟩
      (by decide)⟩

/-- C23 fails as stated: the root operator `0` registers the pointer `NULL` under `"Image 0"`
with type `1`. `getInput<T>("Image 0")` then returns `NULL` (without any message), yet
`getInput<T>("Image 0", default)` with the default object `7` does not return the default: it
returns the object behind the stored pointer (`1000` stands for the object at `NULL`). -/
theorem getInputDefault_dereferences_null :
    getInput (registerOutput emptyHeap 1 0 "Image 0" NULL) 1 "Image 0" 1 0 = some (NULL, []) ∧
    getInputDefault (registerOutput emptyHeap 1 0 "Image 0" NULL) 1 (fun q => q + 1000)
      "Image 0" 7 1 0 = some (1000, []) ∧
    getInputDefault (registerOutput emptyHeap 1 0 "Image 0" NULL) 1 (fun q => q + 1000)
      "Image 0" 7 1 0 ≠ some (7, []) := by
  decide

/-! ## Children by index -/

/-- C26: `getChild` by index is bounds-safe. For every `int` index `i` and every child sequence
(of fewer than `2 ^ 63` elements), both overloads return the `i`-th child pointer when
`0 ≤ i < number of children` (with the "not of type" message when that pointer is null) and
`NULL`, without a message, otherwise; a negative `i` becomes a huge unsigned number in the
comparison with `size()` and fails it. The child sequence is never read outside its bounds. -/
theorem getChildByIndex_bounds_safe (m_children_v : List SChildren) (i : Int)
    (hint : -2147483648 ≤ i ∧ i < 2147483648)
    (hsize : (m_children_v.length : Int) < 9223372036854775808) :
    (0 ≤ i → i < m_children_v.length →
      ∃ c, m_children_v.get? i.toNat = some c ∧
        getChildByIndex m_children_v i
          = some (c.ptr_p, if c.ptr_p = none then [Diag.childAtIndexNotOfType i] else []) ∧
        getChildByIndexConst m_children_v i
          = some (c.ptr_p, if c.ptr_p = none then [Diag.childAtIndexNotOfType i] else [])) ∧
    (¬ (0 ≤ i ∧ i < m_children_v.length) →
      getChildByIndex m_children_v i = some (none, []) ∧
      getChildByIndexConst m_children_v i = some (none, [])) ∧
    (getChildByIndex m_children_v i ≠ none ∧ getChildByIndexConst m_children_v i ≠ none) := by
  have hin : 0 ≤ i → i < m_children_v.length →
      ∃ c, m_children_v.get? i.toNat = some c ∧
        getChildByIndex m_children_v i
          = some (c.ptr_p, if c.ptr_p = none then [Diag.childAtIndexNotOfType i] else []) ∧
        getChildByIndexConst m_children_v i
          = some (c.ptr_p, if c.ptr_p = none then [Diag.childAtIndexNotOfType i] else []) := by
    intro h0 hlt
    have hmod : i % 18446744073709551616 = i := by omega
    cases hget : m_children_v.get? i.toNat with
    | none =>
      have hle := List.get?_eq_none.1 hget
      omega
    | some c =>
      have hget2 : m_children_v[i.toNat]? = some c := by
        rw [← List.get?_eq_getElem?]
        exact hget
      refine ⟨c, rfl, ?_, ?_⟩
      · cases hp : c.ptr_p <;>
          simp [getChildByIndex, intToSize, hmod, hlt, hget2, static_cast, hp]
      · cases hp : c.ptr_p <;>
          simp [getChildByIndexConst, intToSize, hmod, hlt, hget2, static_cast, hp]
  have hout : ¬ (0 ≤ i ∧ i < m_children_v.length) →
      getChildByIndex m_children_v i = some (none, []) ∧
      getChildByIndexConst m_children_v i = some (none, []) := by
    intro hnot
    have hcmp : ¬ (i % 18446744073709551616 < (m_children_v.length : Int)) := by omega
    simp [getChildByIndex, getChildByIndexConst, intToSize, hcmp]
  refine ⟨hin, hout, ?_⟩
  by_cases hrange : 0 ≤ i ∧ i < m_children_v.length
  · obtain ⟨c, _, e1, e2⟩ := hin hrange.1 hrange.2
    rw [e1, e2]
    exact ⟨Option.some_ne_none _, Option.some_ne_none _⟩
  · obtain ⟨e1, e2⟩ := hout hrange
    rw [e1, e2]
    exact ⟨Option.some_ne_none _, Option.some_ne_none _⟩

/-- Witness of C26: index `-1` on `exampleChildren`, which has three children. -/
theorem getChildByIndex_bounds_safe_witness :
    ((-2147483648 : Int) ≤ -1 ∧ (-1 : Int) < 2147483648) ∧
    ((exampleChildren.length : Int) < 9223372036854775808) ∧
    ¬ ((0 : Int) ≤ -1 ∧ (-1 : Int) < exampleChildren.length) ∧
    (getChildByIndex exampleChildren (-1) = some (none, []) ∧
    getChildByIndexConst exampleChildren (-1) = some (none, [])) :=
  ⟨by decide, by decide, by decide,
    (getChildByIndex_bounds_safe exampleChildren (-1) (by decide) (by decide)).2.1
      (by decide)⟩

/-! ## Children by name -/

theorem getChildByName_of_first (getName : OpId → String) (name : String) (q : OpId)
    (post : List SChildren) (hq : getName q = name) :
    ∀ pre : List SChildren,
      (∀ c ∈ pre, ∃ p0, c.ptr_p = some p0 ∧ getName p0 ≠ name) →
      getChildByName getName name (pre ++ ⟨some q⟩ :: post) = some (some q, []) ∧
      getChildByNameConst getName name (pre ++ ⟨some q⟩ :: post) = some (some q, []) := by
  intro pre
  induction pre with
  | nil =>
    intro _
    simp [getChildByName, getChildByNameConst, hq, static_cast]
  | cons c rest ih =>
    intro hpre
    obtain ⟨p0, hp0, hne⟩ := hpre c (List.mem_cons_self c rest)
    have hrest := ih (fun c2 hc2 => hpre c2 (List.mem_cons_of_mem c hc2))
    simpa [getChildByName, getChildByNameConst, hp0, hne] using hrest

theorem getChildByName_of_none (getName : OpId → String) (name : String) :
    ∀ children : List SChildren,
      (∀ c ∈ children, ∃ p0, c.ptr_p = some p0 ∧ getName p0 ≠ name) →
      getChildByName getName name children = some (none, []) ∧
      getChildByNameConst getName name children = some (none, []) := by
  intro children
  induction children with
  | nil =>
    intro _
    simp [getChildByName, getChildByNameConst]
  | cons c rest ih =>
    intro hall
    obtain ⟨p0, hp0, hne⟩ := hall c (List.mem_cons_self c rest)
    have hrest := ih (fun c2 hc2 => hall c2 (List.mem_cons_of_mem c hc2))
    simpa [getChildByName, getChildByNameConst, hp0, hne] using hrest

theorem getChildByName_result (getName : OpId → String) (name : String) :
    ∀ children : List SChildren, (∀ c ∈ children, c.ptr_p ≠ none) →
      ∃ r, getChildByName getName name children = some (r, []) ∧
        getChildByNameConst getName name children = some (r, []) ∧
        (r = none ↔ ∀ c ∈ children, ∀ p0, c.ptr_p = some p0 → getName p0 ≠ name) := by
  intro children
  induction children with
  | nil =>
    intro _
    exact ⟨none, by simp [getChildByName], by simp [getChildByNameConst], by simp⟩
  | cons c rest ih =>
    intro hnn
    obtain ⟨r, e1, e2, hiff⟩ := ih (fun c2 hc2 => hnn c2 (List.mem_cons_of_mem c hc2))
    cases hp : c.ptr_p with
    | none => exact absurd hp (hnn c (List.mem_cons_self c rest))
    | some p0 =>
      by_cases hname : getName p0 = name
      · refine ⟨some p0, by simp [getChildByName, hp, hname, static_cast],
          by simp [getChildByNameConst, hp, hname, static_cast], ?_⟩
        constructor
        · intro hcon
          exact Option.noConfusion hcon
        · intro hall
          exact absurd hname (hall c (List.mem_cons_self c rest) p0 hp)
      · refine ⟨r, by simp [getChildByName, hp, hname, e1],
          by simp [getChildByNameConst, hp, hname, e2], ?_⟩
        rw [hiff]
        constructor
        · intro hall c2 hc2 p2 hp2
          rcases List.mem_cons.1 hc2 with heq | hmem
          · subst heq
            rw [hp] at hp2
            cases hp2
            exact hname
          · exact hall c2 hmem p2 hp2
        · intro hall c2 hc2 p2 hp2
          exact hall c2 (List.mem_cons_of_mem c hc2) p2 hp2

/-- C27: `getChild` by name, on a child sequence without null pointers. Both overloads return
the first child, in the order of the sequence, whose name is the requested one; they return
`NULL` when no child has that name, and only then. Nothing is printed. -/
theorem getChildByName_first_match (getName : OpId → String) (name : String)
    (children : List SChildren) (hnonnull : ∀ c ∈ children, c.ptr_p ≠ none) :
    (∀ pre q post, children = pre ++ ⟨some q⟩ :: post → getName q = name →
      (∀ c ∈ pre, ∀ p0, c.ptr_p = some p0 → getName p0 ≠ name) →
      getChildByName getName name children = some (some q, []) ∧
      getChildByNameConst getName name children = some (some q, [])) ∧
    ((∀ c ∈ children, ∀ p0, c.ptr_p = some p0 → getName p0 ≠ name) →
      getChildByName getName name children = some (none, []) ∧
      getChildByNameConst getName name children = some (none, [])) ∧
    (∃ r, getChildByName getName name children = some (r, []) ∧
      getChildByNameConst getName name children = some (r, []) ∧
      (r = none ↔ ∀ c ∈ children, ∀ p0, c.ptr_p = some p0 → getName p0 ≠ name)) := by
  have hsome : ∀ c ∈ children, ∃ p0, c.ptr_p = some p0 := by
    intro c hc
    cases hp : c.ptr_p with
    | none => exact absurd hp (hnonnull c hc)
    | some p0 => exact ⟨p0, rfl⟩
  refine ⟨?_, ?_, getChildByName_result getName name children hnonnull⟩
  · intro pre q post hsplit hq hpre
    rw [hsplit]
    refine getChildByName_of_first getName name q post hq pre ?_
    intro c hc
    have hmem : c ∈ children := by
      rw [hsplit]
      exact List.mem_append_left _ hc
    obtain ⟨p0, hp0⟩ := hsome c hmem
    exact ⟨p0, hp0, hpre c hc p0 hp0⟩
  · intro hall
    refine getChildByName_of_none getName name children ?_
    intro c hc
    obtain ⟨p0, hp0⟩ := hsome c hc
    exact ⟨p0, hp0, hall c hc p0 hp0⟩

/-- Witness of C27: in `exampleChildren` the operators `1` and `3` are both named
`"Stereo Image Scaler"`; operator `1` comes first, after operator `2` of another name. -/
theorem getChildByName_first_match_witness :
    (∀ c ∈ exampleChildren, c.ptr_p ≠ none) ∧
    exampleChildren = [⟨some 2⟩] ++ ⟨some 1⟩ :: [⟨some 3⟩] ∧
    exampleName 1 = "Stereo Image Scaler" ∧ exampleName 3 = "Stereo Image Scaler" ∧
    (getChildByName exampleName "Stereo Image Scaler" exampleChildren = some (some 1, []) ∧
    getChildByNameConst exampleName "Stereo Image Scaler" exampleChildren
      = some (some 1, [])) :=
  ⟨by decide, by decide, by decide, by decide,
    (getChildByName_first_match exampleName "Stereo Image Scaler" exampleChildren
      (by decide)).1 [⟨some 2⟩] 1 [⟨some 3⟩] (by decide) (by decide) (by decide)⟩

/-! ## Setting the input images -/

/-- C28: `CStereoOp::setInput` fails exactly when the input vector has fewer than two images.
On failure the operator, with its left and right image, is unchanged and the "requires two
images" message is printed; on success the left image is element `0` and the right image
element `1` of the input, and nothing else changes. -/
theorem CStereoOp.setInput_two_images (s : CStereoOp) (f_input_v : List Mat) :
    ((s.setInput f_input_v).1 = false ↔ f_input_v.length < 2) ∧
    (f_input_v.length < 2 → s.setInput f_input_v = (false, s, [Diag.requiresTwoImages])) ∧
    (¬ f_input_v.length < 2 →
      (s.setInput f_input_v).1 = true ∧
      f_input_v.get? 0 = some (s.setInput f_input_v).2.1.m_leftImg ∧
      f_input_v.get? 1 = some (s.setInput f_input_v).2.1.m_rightImg ∧
      (s.setInput f_input_v).2.1 =
        { s with
          m_leftImg := (s.setInput f_input_v).2.1.m_leftImg
          m_rightImg := (s.setInput f_input_v).2.1.m_rightImg }) := by
  refine ⟨?_, ?_, ?_⟩
  · by_cases hlen : f_input_v.length < 2 <;> simp [CStereoOp.setInput, hlen]
  · intro hlen
    simp [CStereoOp.setInput, hlen]
  · intro hlen
    match f_input_v, hlen with
    | [], hlen => simp at hlen
    | [_], hlen => simp at hlen
    | v0 :: v1 :: rest, _ =>
      have h2 : ¬ (rest.length + 1 + 1 < 2) := by omega
      simp [CStereoOp.setInput, h2]

/-- Witness of C28: an input of two images, and an input of one. -/
theorem CStereoOp.setInput_two_images_witness :
    ¬ ([⟨640, 480, 0⟩, ⟨320, 240, 0⟩] : List Mat).length < 2 ∧
    ((CStereoOp.init 0 10 11).setInput [⟨640, 480, 0⟩, ⟨320, 240, 0⟩]).1 = true ∧
    ([⟨640, 480, 0⟩] : List Mat).length < 2 ∧
    (CStereoOp.init 0 10 11).setInput [⟨640, 480, 0⟩]
      = (false, CStereoOp.init 0 10 11, [Diag.requiresTwoImages]) :=
  ⟨by decide,
    ((CStereoOp.setInput_two_images (CStereoOp.init 0 10 11)
      [⟨640, 480, 0⟩, ⟨320, 240, 0⟩]).2.2 (by decide)).1,
    by decide,
    (CStereoOp.setInput_two_images (CStereoOp.init 0 10 11) [⟨640, 480, 0⟩]).2.1 (by decide)⟩

/-! ## Colour channels -/

theorem intToUint8_clamp (x : Int) :
    intToUint8 (max (min 255 x) 0) = max (min 255 x) 0 ∧
    0 ≤ max (min 255 x) 0 ∧ max (min 255 x) 0 ≤ 255 ∧
    (0 ≤ x → x ≤ 255 → max (min 255 x) 0 = x) ∧
    max (min 255 (max (min 255 x) 0)) 0 = max (min 255 x) 0 := by
  unfold intToUint8
  refine ⟨?_, ?_, ?_, ?_, ?_⟩
  · omega
  · omega
  · omega
  · intro h0 h255
    omega
  · omega

/-- C29: for all integers `r`, `g`, `b`, `a` the `int` constructors and `set()` of `SRgba` and
`SRgb` store each channel as `max(min(255, x), 0)`. Every stored channel lies in `0 .. 255`, is
`x` itself when `x` lies there, and clamping the stored channels once more changes nothing. -/
theorem colour_channels_clamped (c : SRgba) (d : SRgb) (r g b a : Int) :
    SRgba.init r g b a
      = ⟨max (min 255 r) 0, max (min 255 g) 0, max (min 255 b) 0, max (min 255 a) 0⟩ ∧
    c.set r g b a
      = ⟨max (min 255 r) 0, max (min 255 g) 0, max (min 255 b) 0, max (min 255 a) 0⟩ ∧
    SRgb.init r g b = ⟨max (min 255 r) 0, max (min 255 g) 0, max (min 255 b) 0⟩ ∧
    d.set r g b = ⟨max (min 255 r) 0, max (min 255 g) 0, max (min 255 b) 0⟩ ∧
    ((0 ≤ (c.set r g b a).r ∧ (c.set r g b a).r ≤ 255) ∧
      (0 ≤ (c.set r g b a).g ∧ (c.set r g b a).g ≤ 255) ∧
      (0 ≤ (c.set r g b a).b ∧ (c.set r g b a).b ≤ 255) ∧
      (0 ≤ (c.set r g b a).a ∧ (c.set r g b a).a ≤ 255)) ∧
    ((0 ≤ r ∧ r ≤ 255) → (0 ≤ g ∧ g ≤ 255) → (0 ≤ b ∧ b ≤ 255) → (0 ≤ a ∧ a ≤ 255) →
      c.set r g b a = ⟨r, g, b, a⟩ ∧ d.set r g b = ⟨r, g, b⟩) ∧
    (c.set r g b a).set (c.set r g b a).r (c.set r g b a).g (c.set r g b a).b
      (c.set r g b a).a = c.set r g b a ∧
    (d.set r g b).set (d.set r g b).r (d.set r g b).g (d.set r g b).b = d.set r g b := by
  obtain ⟨er, er0, er1, erid, erre⟩ := intToUint8_clamp r
  obtain ⟨eg, eg0, eg1, egid, egre⟩ := intToUint8_clamp g
  obtain ⟨eb, eb0, eb1, ebid, ebre⟩ := intToUint8_clamp b
  obtain ⟨ea, ea0, ea1, eaid, eare⟩ := intToUint8_clamp a
  have hset : c.set r g b a
      = ⟨max (min 255 r) 0, max (min 255 g) 0, max (min 255 b) 0, max (min 255 a) 0⟩ := by
    simp only [SRgba.set, er, eg, eb, ea]
  have hset3 : d.set r g b = ⟨max (min 255 r) 0, max (min 255 g) 0, max (min 255 b) 0⟩ := by
    simp only [SRgb.set, er, eg, eb]
  refine ⟨by simp only [SRgba.init, er, eg, eb, ea], hset,
    by simp only [SRgb.init, er, eg, eb], hset3, ?_, ?_, ?_, ?_⟩
  · rw [hset]
    exact ⟨⟨er0, er1⟩, ⟨eg0, eg1⟩, ⟨eb0, eb1⟩, ⟨ea0, ea1⟩⟩
  · intro hr hg hb ha
    rw [hset, hset3, erid hr.1 hr.2, egid hg.1 hg.2, ebid hb.1 hb.2, eaid ha.1 ha.2]
    exact ⟨rfl, rfl⟩
  · rw [hset]
    simp only [SRgba.set, erre, egre, ebre, eare, er, eg, eb, ea]
  · rw [hset3]
    simp only [SRgb.set, erre, egre, ebre, er, eg, eb]

/-- Witness of C29: the channels `220, 0, 0` of the group colour of `CStereoOp`, opaque. -/
theorem colour_channels_clamped_witness :
    ((0 : Int) ≤ 220 ∧ (220 : Int) ≤ 255) ∧ ((0 : Int) ≤ 0 ∧ (0 : Int) ≤ 255) ∧
    ((0 : Int) ≤ 255 ∧ (255 : Int) ≤ 255) ∧
    (SRgba.set ⟨1, 2, 3, 4⟩ 220 0 0 255 = ⟨220, 0, 0, 255⟩ ∧
    SRgb.set ⟨1, 2, 3⟩ 220 0 0 = ⟨220, 0, 0⟩) :=
  ⟨by decide, by decide, by decide,
    (colour_channels_clamped ⟨1, 2, 3, 4⟩ ⟨1, 2, 3⟩ 220 0 0 255).2.2.2.2.2.1
      (by decide) (by decide) (by decide) (by decide)⟩

/-! ## The number of disparities written back by a cycle -/

end QCV
